import Mathlib

/-
Verification development for the Superset AI-assistant extension
(backend orchestration loop and database tool registry).

Shallow embedding of:
  * backend/src/ai_assistant/agent.py  (run_agent, run_agent_stream, _summarize_result,
    build_system_prompt)
  * dist/backend/src/ai_assistant/tools.py (execute_tool, the tool_* executors,
    FRONTEND_ACTIONS)

Modelling conventions:
  * JSON values (parsed tool arguments, tool results) are the inductive `JVal`;
    Python dicts are association lists `List (String × JVal)` with first-match
    lookup and in-place-overwriting insertion, matching Python dict semantics.
  * Uncaught Python exceptions are `Except PyErr`: `arguments["k"]` on a dict
    missing `k` is `.error (.keyError k)`, and indexing / `**`-splatting a
    non-dict is `.error .typeError`.  Code that catches exceptions is total.
  * The raw `arguments` text of a tool call is modelled by the outcome of
    `json.loads` on it: `.error ()` when the text raises `json.JSONDecodeError`,
    `.ok v` when it parses to the JSON value `v` (the parser itself is Python
    stdlib, outside the embedded code).
  * The LLM provider adapter (`create_chat_completion`, with the fixed provider
    configuration and the static TOOL_DEFINITIONS catalog already applied) is a
    collaborator function `Provider : List Message → Except String Completion`;
    `.error ex` models the call raising with message `ex`.
  * The database collaborator (Superset `Database` model plus
    `_extract_result_data` post-processing of its pandas results) is the record
    `DbEnv`; each operation returns `Except String α`, `.error ex` modelling a
    raised exception with text `ex`.  `execute` returns the extracted
    (rows, columns) pair.
  * `AgentRun` carries, besides the returned result dict, bookkeeping fields
    (`usages`, `providerCalls`, `callsDispatched`) recording the observable
    interaction with the collaborators; they are not part of the source's
    return value and nothing in the embedded code reads them.
-/

set_option maxHeartbeats 1000000

namespace Vambery

/-- A parsed JSON value, as produced by `json.loads`. -/
inductive JVal where
  | jnull
  | jbool (b : Bool)
  | jnum (n : Int)
  | jstr (s : String)
  | jarr (xs : List JVal)
  | jobj (kvs : List (String × JVal))

/-- An uncaught Python exception crossing a function boundary. -/
inductive PyErr where
  | keyError (k : String)
  | typeError

/-- A tool result / Python dict: association list with first-match lookup. -/
abbrev ToolResult := List (String × JVal)

/-- First-match association lookup, like reading a Python dict key. -/
def dlookup : List (String × JVal) → String → Option JVal
  | [], _ => none
  | (k', v) :: rest, k => if k' = k then some v else dlookup rest k

/-- Python dict assignment `d[k] = v`: overwrite the first binding of `k`
in place (keeping its position), else append a new binding. -/
def dictInsert : List (String × JVal) → String → JVal → List (String × JVal)
  | [], k, v => [(k, v)]
  | (k', v') :: rest, k, v =>
    if k' = k then (k, v) :: rest else (k', v') :: dictInsert rest k v

/-- Merge `e` into `d` key by key, later keys overwriting: the semantics of
`{**d, **e}` / updating a dict literal with splatted entries. -/
def dictMerge (d e : List (String × JVal)) : List (String × JVal) :=
  e.foldl (fun acc kv => dictInsert acc kv.1 kv.2) d

/-- `{… base …, **v}`: splatting a non-dict raises TypeError. -/
def dictSplat (base : List (String × JVal)) (v : JVal) :
    Except PyErr (List (String × JVal)) :=
  match v with
  | .jobj kvs => .ok (dictMerge base kvs)
  | _ => .error .typeError

/-- `v[k]` for model-supplied arguments: KeyError on a dict missing `k`,
TypeError when `v` is not a dict. -/
def dictGet (v : JVal) (k : String) : Except PyErr JVal :=
  match v with
  | .jobj kvs =>
    match dlookup kvs k with
    | some x => .ok x
    | none => .error (.keyError k)
  | _ => .error .typeError

mutual

/-- `json.dumps` on a JSON value (string escaping elided: embedded strings are
emitted verbatim between quotes). -/
def dumpsV : JVal → String
  | .jnull => "null"
  | .jbool true => "true"
  | .jbool false => "false"
  | .jnum n => toString n
  | .jstr s => "\"" ++ s ++ "\""
  | .jarr xs => "[" ++ dumpsArr xs ++ "]"
  | .jobj kvs => "\x7b" ++ dumpsObj kvs ++ "\x7d"

/-- Comma-joined `json.dumps` renderings of array elements. -/
def dumpsArr : List JVal → String
  | [] => ""
  | [x] => dumpsV x
  | x :: y :: xs => dumpsV x ++ ", " ++ dumpsArr (y :: xs)

/-- Comma-joined `json.dumps` renderings of object entries. -/
def dumpsObj : List (String × JVal) → String
  | [] => ""
  | [(k, v)] => "\"" ++ k ++ "\": " ++ dumpsV v
  | (k, v) :: p :: ps => "\"" ++ k ++ "\": " ++ dumpsV v ++ ", " ++ dumpsObj (p :: ps)

end

/-- Python `str()` of a parsed JSON value (composite values approximated by
their JSON rendering; only scalar cases are reached by the embedded code). -/
def jvalStr : JVal → String
  | .jnull => "None"
  | .jbool true => "True"
  | .jbool false => "False"
  | .jnum n => toString n
  | .jstr s => s
  | .jarr xs => dumpsV (.jarr xs)
  | .jobj kvs => dumpsV (.jobj kvs)

/-- Python type name of a JSON value, for exception texts. -/
def pyTypeName : JVal → String
  | .jnull => "NoneType"
  | .jbool _ => "bool"
  | .jnum _ => "int"
  | .jstr _ => "str"
  | .jarr _ => "list"
  | .jobj _ => "dict"

/-- Python truthiness of a JSON value. -/
def pyTruthy : JVal → Bool
  | .jnull => false
  | .jbool b => b
  | .jnum n => n != 0
  | .jstr s => !(s == "")
  | .jarr xs => !xs.isEmpty
  | .jobj kvs => !kvs.isEmpty

/-- Python `a or b` on JSON values. -/
def pyOr (a b : JVal) : JVal := if pyTruthy a then a else b

/-- Python `str.strip()` (whitespace from both ends). -/
def py_strip (s : String) : String :=
  String.mk (((s.data.dropWhile Char.isWhitespace).reverse.dropWhile
    Char.isWhitespace).reverse)

/-- Python `str.upper()` (ASCII case mapping). -/
def py_upper (s : String) : String := String.mk (s.data.map Char.toUpper)

/-- Python `str.lower()` (ASCII case mapping). -/
def py_lower (s : String) : String := String.mk (s.data.map Char.toLower)

/-- Python `s.startswith(pre)`. -/
def py_startswith (s pre : String) : Bool := pre.data.isPrefixOf s.data

/-- Substring containment over character lists. -/
def charsContains (pat : List Char) : List Char → Bool
  | [] => pat.isEmpty
  | c :: t => pat.isPrefixOf (c :: t) || charsContains pat t

/-- Python `pat in s` for strings. -/
def strContains (s pat : String) : Bool := charsContains pat.data s.data

/-- The list of JSON values stored under a list-shaped result key. -/
def asList : JVal → List JVal
  | .jarr xs => xs
  | _ => []

/-- A per-round token usage object as returned by the provider adapter;
`none` models a missing field (read with `.get(field, 0)`). -/
structure RoundUsage where
  prompt_tokens : Option Nat
  completion_tokens : Option Nat
  total_tokens : Option Nat

/-- The running usage accumulator `total_usage`. -/
structure Usage where
  prompt_tokens : Nat
  completion_tokens : Nat
  total_tokens : Nat

/-- One round of usage accumulation: `total_usage[f] += usage.get(f, 0)`. -/
def addUsage (t : Usage) (u : RoundUsage) : Usage :=
  { prompt_tokens := t.prompt_tokens + u.prompt_tokens.getD 0,
    completion_tokens := t.completion_tokens + u.completion_tokens.getD 0,
    total_tokens := t.total_tokens + u.total_tokens.getD 0 }

/-- Elementwise sum of per-round usage objects, missing fields as zero. -/
def usageSums (l : List RoundUsage) : Usage :=
  { prompt_tokens := (l.map (fun u => u.prompt_tokens.getD 0)).sum,
    completion_tokens := (l.map (fun u => u.completion_tokens.getD 0)).sum,
    total_tokens := (l.map (fun u => u.total_tokens.getD 0)).sum }

/-- One tool call of an assistant message.  `arguments` models `json.loads` on
the raw argument text (see the header comment). -/
structure ToolCall where
  id : String
  name : String
  arguments : Except Unit JVal

/-- The normalized assistant message of a completion (`content` may be JSON
null; `tool_calls` is absent or a list). -/
structure AssistantMsg where
  content : Option String
  tool_calls : Option (List ToolCall)

/-- A normalized completion from the provider adapter. -/
structure Completion where
  message : AssistantMsg
  finish_reason : String
  usage : RoundUsage

/-- One entry of the loop's growing `llm_messages` conversation. -/
inductive Message where
  | chat (role : String) (content : Option String)
  | assistant (m : AssistantMsg)
  | tool (tool_call_id : String) (content : String)

/-- The provider adapter collaborator (`create_chat_completion` with the
configuration and static tool catalog already applied). -/
abbrev Provider := List Message → Except String Completion

/-- Options bundle handed to `database.execute` (`QueryOptions`); `schema` is
whatever value Python passes (a context string or a raw model argument). -/
structure QueryOptions where
  catalog : Option String
  schema : JVal
  limit : Nat

/-- The database collaborator: the Superset `Database` model addressed by id,
with `_extract_result_data` folded into `execute` (it returns the extracted
rows-as-dicts plus column names).  Each operation may raise (`.error`). -/
structure DbEnv where
  found : Int → Bool
  db_engine_spec_name : Option String
  get_all_schema_names : Option String → Except String (List String)
  get_all_table_names_in_schema :
    Option String → JVal → Except String (List (String × JVal × Option String))
  get_columns :
    JVal → JVal → Option String → Except String (List (List (String × JVal)))
  execute :
    String → QueryOptions → Except String (List (List (String × JVal)) × List String)

/-- `_get_database`: raises ValueError when the id is unknown. -/
def get_database (env : DbEnv) (database_id : Int) : Except String Unit :=
  if env.found database_id then .ok ()
  else .error ("Database with id=" ++ toString database_id ++ " not found")

/-- Insertion into an ascending list of strings (for Python `sorted`). -/
def insertSorted (x : String) : List String → List String
  | [] => [x]
  | y :: ys => if x ≤ y then x :: y :: ys else y :: insertSorted x ys

/-- Python `sorted` on a list of strings. -/
def sortStrs (l : List String) : List String := l.foldr insertSorted []

/-- `tool_list_schemas`. -/
def tool_list_schemas (env : DbEnv) (database_id : Int) (catalog : Option String) :
    ToolResult :=
  match (do
      let _ ← get_database env database_id
      env.get_all_schema_names catalog) with
  | .ok schemas => [("schemas", .jarr ((sortStrs schemas).map .jstr))]
  | .error ex => [("error", .jstr ex)]

/-- `tool_list_tables`. -/
def tool_list_tables (env : DbEnv) (database_id : Int) (schema_name : JVal)
    (catalog : Option String) : ToolResult :=
  match (do
      let _ ← get_database env database_id
      env.get_all_table_names_in_schema catalog schema_name) with
  | .ok tables =>
    let table_names := sortStrs (tables.map (·.1))
    [("tables", .jarr (table_names.map .jstr)), ("schema", schema_name)]
  | .error ex => [("error", .jstr ex)]

/-- `tool_get_table_columns`. -/
def tool_get_table_columns (env : DbEnv) (database_id : Int)
    (table_name schema_name : JVal) (catalog : Option String) : ToolResult :=
  match (do
      let _ ← get_database env database_id
      env.get_columns table_name schema_name catalog) with
  | .ok columns =>
    let col_info := columns.map (fun col =>
      [("name", pyOr ((dlookup col "column_name").getD .jnull)
          ((dlookup col "name").getD (.jstr "unknown"))),
       ("type", JVal.jstr (jvalStr ((dlookup col "type").getD (.jstr "unknown")))),
       ("nullable", (dlookup col "nullable").getD (.jbool true))])
    [("table", table_name), ("schema", schema_name),
     ("columns", .jarr (col_info.map .jobj))]
  | .error ex => [("error", .jstr ex)]

/-- `tool_sample_table_data` (dialect-specific SQL text built exactly as in the
source; `max_rows` defaults to 20 at Python call sites that omit it). -/
def tool_sample_table_data (env : DbEnv) (database_id : Int)
    (table_name schema_name : JVal) (catalog : Option String) (max_rows : Nat) :
    ToolResult :=
  match (do
      let _ ← get_database env database_id
      let db_engine := env.db_engine_spec_name.getD ""
      let sql :=
        if strContains (py_lower db_engine) "mssql" || strContains db_engine "MSSql" then
          "SELECT TOP " ++ toString max_rows ++ " * FROM [" ++ jvalStr schema_name
            ++ "].[" ++ jvalStr table_name ++ "]"
        else
          "SELECT * FROM \"" ++ jvalStr schema_name ++ "\".\"" ++ jvalStr table_name
            ++ "\" LIMIT " ++ toString max_rows
      env.execute sql ⟨catalog, schema_name, max_rows⟩) with
  | .ok (rows0, _) =>
    let rows := rows0.take max_rows
    [("table", table_name), ("schema", schema_name),
     ("row_count", .jnum (rows.length : Int)), ("data", .jarr (rows.map .jobj))]
  | .error ex => [("error", .jstr ex)]

/-- The `for row in rows[:max_values]` loop body of `tool_get_distinct_values`:
`list(row.values())[0]` per row, raising IndexError on an empty row dict. -/
def firstValues : List (List (String × JVal)) → Except String (List JVal)
  | [] => .ok []
  | row :: rest =>
    match row with
    | [] => .error "list index out of range"
    | (_, v) :: _ => (firstValues rest).map (fun vs => v :: vs)

/-- `tool_get_distinct_values` (`max_values` defaults to 50 at Python call
sites that omit it; `list(row.values())[0]` on an empty row dict raises
IndexError, caught by the surrounding handler). -/
def tool_get_distinct_values (env : DbEnv) (database_id : Int)
    (table_name schema_name column_name : JVal) (catalog : Option String)
    (max_values : Nat) : ToolResult :=
  match (do
      let _ ← get_database env database_id
      let db_engine := env.db_engine_spec_name.getD ""
      let sql :=
        if strContains (py_lower db_engine) "mssql" || strContains db_engine "MSSql" then
          "SELECT DISTINCT TOP " ++ toString max_values ++ " [" ++ jvalStr column_name
            ++ "] FROM [" ++ jvalStr schema_name ++ "].[" ++ jvalStr table_name
            ++ "] WHERE [" ++ jvalStr column_name ++ "] IS NOT NULL ORDER BY ["
            ++ jvalStr column_name ++ "]"
        else
          "SELECT DISTINCT \"" ++ jvalStr column_name ++ "\" FROM \""
            ++ jvalStr schema_name ++ "\".\"" ++ jvalStr table_name
            ++ "\" WHERE \"" ++ jvalStr column_name ++ "\" IS NOT NULL ORDER BY \""
            ++ jvalStr column_name ++ "\" LIMIT " ++ toString max_values
      let (rows0, _) ← env.execute sql ⟨catalog, schema_name, max_values⟩
      firstValues (rows0.take max_values)) with
  | .ok vals =>
    let values := vals.map (fun v =>
      match v with
      | JVal.jnull => JVal.jnull
      | v => JVal.jstr (jvalStr v))
    [("table", table_name), ("column", column_name),
     ("distinct_count", .jnum (values.length : Int)), ("values", .jarr values)]
  | .error ex => [("error", .jstr ex)]

/-- The body of `tool_execute_sql` after the SELECT/WITH guard has passed. -/
def execute_sql_query (env : DbEnv) (database_id : Int) (s : String)
    (schema_name : Option String) (catalog : Option String) (max_rows : Nat)
    (sql : JVal) : ToolResult :=
  match (do
      let _ ← get_database env database_id
      env.execute s ⟨catalog, match schema_name with
        | some x => .jstr x
        | none => .jnull, max_rows⟩) with
  | .ok (rows0, columns) =>
    let rows := rows0.take max_rows
    [("columns", .jarr (columns.map .jstr)),
     ("row_count", .jnum (rows.length : Int)), ("data", .jarr (rows.map .jobj))]
  | .error ex => [("error", .jstr ex), ("sql", sql)]

/-- `tool_execute_sql` (`max_rows` defaults to 50 at Python call sites that
omit it).  The guard `sql.strip().upper().startswith(...)` runs before any
database access; a non-string `sql` raises AttributeError inside the
handler's `try` and is caught. -/
def tool_execute_sql (env : DbEnv) (database_id : Int) (sql : JVal)
    (schema_name : Option String) (catalog : Option String) (max_rows : Nat) :
    ToolResult :=
  match sql with
  | .jstr s =>
    let sql_stripped := py_upper (py_strip s)
    if !(py_startswith sql_stripped "SELECT") && !(py_startswith sql_stripped "WITH") then
      [("error", .jstr "Only SELECT and WITH (CTE) queries are allowed for safety")]
    else
      execute_sql_query env database_id s schema_name catalog max_rows sql
  | v =>
    [("error", .jstr ("'" ++ pyTypeName v ++ "' object has no attribute 'strip'")),
     ("sql", v)]

/-- `FRONTEND_ACTIONS`: tools relayed to the frontend, never executed
server-side. -/
def FRONTEND_ACTIONS : List String := ["set_editor_sql"]

/-- `execute_tool`: dispatch by exact name.  The required-argument reads
`arguments["…"]` happen here, outside every tool's `try`, so a missing key
raises KeyError across this boundary (`.error`).  Call sites that omit a
Python default are translated with the default value written out
(`max_values = 50`, `max_rows = 50`). -/
def execute_tool (env : DbEnv) (tool_name : String) (arguments : JVal)
    (database_id : Int) (schema_name : Option String) (catalog : Option String)
    (max_sample_rows : Nat) : Except PyErr ToolResult :=
  if tool_name ∈ FRONTEND_ACTIONS then
    dictSplat [("action", .jstr tool_name)] arguments
  else if tool_name = "list_schemas" then
    .ok (tool_list_schemas env database_id catalog)
  else if tool_name = "list_tables" then do
    let schema ← dictGet arguments "schema_name"
    .ok (tool_list_tables env database_id schema catalog)
  else if tool_name = "get_table_columns" then do
    let table ← dictGet arguments "table_name"
    let schema ← dictGet arguments "schema_name"
    .ok (tool_get_table_columns env database_id table schema catalog)
  else if tool_name = "sample_table_data" then do
    let table ← dictGet arguments "table_name"
    let schema ← dictGet arguments "schema_name"
    .ok (tool_sample_table_data env database_id table schema catalog max_sample_rows)
  else if tool_name = "get_distinct_values" then do
    let table ← dictGet arguments "table_name"
    let schema ← dictGet arguments "schema_name"
    let column ← dictGet arguments "column_name"
    .ok (tool_get_distinct_values env database_id table schema column catalog 50)
  else if tool_name = "execute_sql" then do
    let sql ← dictGet arguments "sql"
    .ok (tool_execute_sql env database_id sql schema_name catalog 50)
  else
    .ok [("error", .jstr ("Unknown tool: " ++ tool_name))]

/-- `_summarize_result`: key-presence dispatch in the source's order. -/
def _summarize_result (result : ToolResult) : String :=
  match dlookup result "error" with
  | some v => "Error: " ++ (jvalStr v).take 100
  | none =>
    match dlookup result "schemas" with
    | some v =>
      let schemas := asList v
      "Found " ++ toString schemas.length ++ " schemas: "
        ++ String.intercalate ", " ((schemas.take 5).map jvalStr)
        ++ (if schemas.length > 5 then "..." else "")
    | none =>
      match dlookup result "tables" with
      | some v =>
        "Found " ++ toString (asList v).length ++ " tables in "
          ++ jvalStr ((dlookup result "schema").getD (.jstr "?"))
      | none =>
        match dlookup result "columns" with
        | some v =>
          "Table " ++ jvalStr ((dlookup result "table").getD (.jstr "?"))
            ++ ": " ++ toString (asList v).length ++ " columns"
        | none =>
          match dlookup result "data" with
          | some _ =>
            jvalStr ((dlookup result "row_count").getD (.jstr "?")) ++ " rows returned"
          | none =>
            match dlookup result "values" with
            | some v =>
              toString (asList v).length ++ " distinct values in "
                ++ jvalStr ((dlookup result "column").getD (.jstr "?"))
            | none =>
              match dlookup result "action" with
              | some v => "Frontend action: " ++ jvalStr v
              | none => (dumpsV (.jobj result)).take 100

/-- The static policy text `SYSTEM_PROMPT` (Python backslash line
continuations merged, as the interpreter does). -/
def SYSTEM_PROMPT : String :=
  "You are an AI SQL assistant integrated into Apache Superset's SQL Lab.\n"
  ++ "You help users write, debug, and optimize SQL queries.\n\n"
  ++ "## Your Capabilities\n"
  ++ "- You can inspect database schemas (list schemas, tables, columns)\n"
  ++ "- You can sample data from tables to understand their content\n"
  ++ "- You can check distinct/unique values in columns\n"
  ++ "- You can execute SQL queries to test and validate them\n"
  ++ "- You can set the final SQL query in the user's editor AND auto-execute it\n\n"
  ++ "## Your Workflow\n"
  ++ "When a user asks you to create or modify a query:\n"
  ++ "1. First, explore the database schema using your tools (list_schemas, list_tables, get_table_columns)\n"
  ++ "2. Sample data from relevant tables to understand the data (sample_table_data, get_distinct_values)\n"
  ++ "3. Write and test the query using execute_sql to make sure it works\n"
  ++ "4. Once the query is correct, use set_editor_sql to place it in the user's editor (this will auto-run it)\n"
  ++ "5. Explain what the query does and any assumptions you made\n\n"
  ++ "## CRITICAL: Always Provide Runnable SQL if there is any usable outcome from the query\n"
  ++ "- **ALWAYS call set_editor_sql** with your best query. Every conversation should end with "
  ++ "a runnable SQL query placed in the editor. Even if the question is exploratory, provide a "
  ++ "useful query the user can start from.\n"
  ++ "- If the user's request could be answered by multiple queries (different angles, aggregations, "
  ++ "or perspectives), call set_editor_sql with the most relevant one AND include the other queries "
  ++ "as formatted SQL code blocks in your text response so the user can copy-paste them.\n"
  ++ "- Structure your response to give the user **actionable SQL they can run immediately**:\n"
  ++ "  - The PRIMARY query goes into set_editor_sql (auto-executes)\n"
  ++ "  - Additional ALTERNATIVE queries go in your text response as ```sql code blocks\n"
  ++ "  - For each alternative, add a one-line explanation of what it shows\n"
  ++ "- Think about what would make a good **chart or dashboard** from this data. If a query result "
  ++ "would be good for visualization, mention it (e.g., \"This result works well as a bar chart "
  ++ "grouped by X\" or \"You could create a time-series chart from this\").\n\n"
  ++ "## Rules\n"
  ++ "- Always explore the schema before writing queries - don't guess column names\n"
  ++ "- Test your queries with execute_sql before presenting them as final\n"
  ++ "- Use set_editor_sql to put the final query in the editor\n"
  ++ "- Be concise but informative in your explanations\n"
  ++ "- If you encounter errors, debug them and try alternative approaches\n"
  ++ "- Respect the database dialect (MSSQL uses TOP, brackets; PostgreSQL uses LIMIT, double quotes)\n"
  ++ "- When the user asks an open-ended question about data, provide the most useful analytical "
  ++ "query first, then offer 2-3 alternative queries that explore the data from different angles\n"

/-- Python truthiness of an optional string (`None` and `\"\"` are falsy). -/
def pyOptTruthy : Option String → Bool
  | some s => !(s == "")
  | none => false

/-- `build_system_prompt`: static policy text plus context sections, each
emitted only when its input is truthy, joined by newlines. -/
def build_system_prompt (database_name schema_name current_sql : Option String)
    (extra_prompt : String) : String :=
  let parts : List String := [SYSTEM_PROMPT]
  let parts :=
    if pyOptTruthy database_name || pyOptTruthy schema_name then
      parts ++ ["\n## Current Context\n"
        ++ (if pyOptTruthy database_name then
              "- Connected database: " ++ database_name.getD "" ++ "\n" else "")
        ++ (if pyOptTruthy schema_name then
              "- Selected schema: " ++ schema_name.getD "" ++ "\n" else "")]
    else parts
  let parts :=
    if pyOptTruthy current_sql && !(py_strip (current_sql.getD "") == "") then
      parts ++ ["\n## Current Editor Content\n"
        ++ "The user's SQL editor currently contains:\n```sql\n"
        ++ current_sql.getD "" ++ "\n```\n"]
    else parts
  let parts :=
    if !(extra_prompt == "") then
      parts ++ ["\n## Additional Instructions\n" ++ extra_prompt ++ "\n"]
    else parts
  String.intercalate "\n" parts

/-- One recorded step dict (`type` is the constant `"tool_call"`). -/
structure Step where
  type : String
  tool : String
  args : JVal
  result_summary : String

/-- The batch-mode return dict of `run_agent`.  `error`/`warning` model the
presence of the optional `"error": True` / `"warning": …` keys. -/
structure RunResult where
  response : Option String
  actions : List (List (String × JVal))
  steps : List Step
  usage : Usage
  error : Bool
  warning : Option String

/-- A finished batch run plus interaction bookkeeping (see header comment). -/
structure AgentRun where
  result : RunResult
  usages : List RoundUsage
  providerCalls : Nat
  callsDispatched : Nat

/-- The loop's mutable state in batch mode. -/
structure LoopSt where
  llm_messages : List Message
  steps : List Step
  actions : List (List (String × JVal))
  total_usage : Usage
  usages : List RoundUsage
  providerCalls : Nat
  callsDispatched : Nat

/-- The events yielded by `run_agent_stream`. -/
inductive Event where
  | step (data : Step)
  | action (data : List (String × JVal))
  | response (resp : Option String) (usage : Usage) (warning : Option String)
  | error (msg : String)

/-- The stream loop's mutable state (emitted events appended in order). -/
structure StreamSt where
  llm_messages : List Message
  total_usage : Usage
  events : List Event

/-- The merged AI-assistant configuration read at entry
(`max_tool_rounds` defaults to 10, `max_sample_rows` to 20). -/
structure AgentCfg where
  max_tool_rounds : Nat
  max_sample_rows : Nat
  system_prompt_extra : String

/-- One caller-supplied history message (copied by role/content only). -/
structure ChatMsg where
  role : String
  content : Option String

/-- The fixed apologetic message returned on budget exhaustion. -/
def BUDGET_MESSAGE : String :=
  "I've been working on this for a while but haven't finished. "
  ++ "Here's what I've done so far. You can continue the conversation "
  ++ "for me to refine the results."

/-- `json.loads(func["arguments"])` with `json.JSONDecodeError` downgraded to
an empty mapping. -/
def parsed_args (tc : ToolCall) : JVal :=
  match tc.arguments with
  | .ok v => v
  | .error _ => .jobj []

/-- Python truthiness of `assistant_message.get("tool_calls")`
(absent or an empty list are falsy). -/
def truthyCalls : Option (List ToolCall) → Bool
  | some (_ :: _) => true
  | _ => false

/-- Processing of one tool call inside a batch round: dispatch, record an
Action for frontend tools, always record a Step, append the tool-role
message.  An uncaught dispatch exception propagates. -/
def process_tool_call (env : DbEnv) (database_id : Int)
    (schema_name catalog : Option String) (max_sample_rows : Nat)
    (tc : ToolCall) (st : LoopSt) : Except PyErr LoopSt := do
  let tool_result ← execute_tool env tc.name (parsed_args tc) database_id schema_name
    catalog max_sample_rows
  let st ←
    if tc.name ∈ FRONTEND_ACTIONS then do
      let a ← dictSplat [("type", .jstr tc.name)] (parsed_args tc)
      pure { st with actions := st.actions ++ [a] }
    else pure st
  let st := { st with
    steps := st.steps
      ++ [(⟨"tool_call", tc.name, parsed_args tc, _summarize_result tool_result⟩ : Step)] }
  pure { st with
    llm_messages := st.llm_messages ++ [Message.tool tc.id (dumpsV (.jobj tool_result))],
    callsDispatched := st.callsDispatched + 1 }

/-- The usage-accumulation step of a successful round
(`total_usage[f] += usage.get(f, 0)`), plus interaction bookkeeping. -/
def noteUsage (st : LoopSt) (u : RoundUsage) : LoopSt :=
  { st with
    total_usage := addUsage st.total_usage u,
    usages := st.usages ++ [u],
    providerCalls := st.providerCalls + 1 }

/-- Appending the assistant message (verbatim, tool calls kept) to history. -/
def appendAssistant (st : LoopSt) (m : AssistantMsg) : LoopSt :=
  { st with llm_messages := st.llm_messages ++ [Message.assistant m] }

/-- The batch round loop of `run_agent` (`for round_num in range(max_rounds)`),
fuel counting the remaining rounds. -/
def agent_loop (provider : Provider) (env : DbEnv) (database_id : Int)
    (schema_name catalog : Option String) (max_sample_rows : Nat) :
    Nat → LoopSt → Except PyErr AgentRun
  | 0, st =>
    .ok ⟨{ response := some BUDGET_MESSAGE, actions := st.actions, steps := st.steps,
           usage := st.total_usage, error := false,
           warning := some "max_rounds_exceeded" },
         st.usages, st.providerCalls, st.callsDispatched⟩
  | fuel + 1, st =>
    match provider st.llm_messages with
    | .error ex =>
      .ok ⟨{ response := some ("Error communicating with AI: " ++ ex),
             actions := st.actions, steps := st.steps, usage := st.total_usage,
             error := true, warning := none },
           st.usages, st.providerCalls + 1, st.callsDispatched⟩
    | .ok result =>
      if truthyCalls result.message.tool_calls
          && (result.finish_reason == "tool_calls" || result.finish_reason == "stop") then
        match (result.message.tool_calls.getD []).foldlM
            (fun s tc => process_tool_call env database_id schema_name catalog
              max_sample_rows tc s)
            (appendAssistant (noteUsage st result.usage) result.message) with
        | .error e => .error e
        | .ok st =>
          agent_loop provider env database_id schema_name catalog max_sample_rows fuel st
      else
        .ok ⟨{ response := result.message.content, actions := st.actions,
               steps := st.steps, usage := addUsage st.total_usage result.usage,
               error := false, warning := none },
             st.usages ++ [result.usage], st.providerCalls + 1, st.callsDispatched⟩

/-- The empty initial batch loop state over an assembled conversation. -/
def initLoopSt (msgs : List Message) : LoopSt := ⟨msgs, [], [], ⟨0, 0, 0⟩, [], 0, 0⟩

/-- `run_agent`: assemble system prompt plus copied history, then run the
round loop. -/
def run_agent (provider : Provider) (env : DbEnv) (cfg : AgentCfg)
    (messages : List ChatMsg) (database_id : Int)
    (database_name schema_name catalog current_sql : Option String) :
    Except PyErr AgentRun :=
  let system_prompt := build_system_prompt database_name schema_name current_sql
    cfg.system_prompt_extra
  let llm_messages := Message.chat "system" (some system_prompt)
    :: messages.map (fun m => Message.chat m.role m.content)
  agent_loop provider env database_id schema_name catalog cfg.max_sample_rows
    cfg.max_tool_rounds (initLoopSt llm_messages)

/-- Processing of one tool call inside a stream round: dispatch, yield a step
event, yield an action event for frontend tools, append the tool-role
message. -/
def process_tool_call_stream (env : DbEnv) (database_id : Int)
    (schema_name catalog : Option String) (max_sample_rows : Nat)
    (tc : ToolCall) (st : StreamSt) : Except PyErr StreamSt := do
  let tool_result ← execute_tool env tc.name (parsed_args tc) database_id schema_name
    catalog max_sample_rows
  let st := { st with
    events := st.events
      ++ [Event.step ⟨"tool_call", tc.name, parsed_args tc, _summarize_result tool_result⟩] }
  let st ←
    if tc.name ∈ FRONTEND_ACTIONS then do
      let a ← dictSplat [("type", .jstr tc.name)] (parsed_args tc)
      pure { st with events := st.events ++ [Event.action a] }
    else pure st
  pure { st with
    llm_messages := st.llm_messages ++ [Message.tool tc.id (dumpsV (.jobj tool_result))] }

/-- The usage-accumulation step of a successful stream round. -/
def noteUsageStream (st : StreamSt) (u : RoundUsage) : StreamSt :=
  { st with total_usage := addUsage st.total_usage u }

/-- Appending the assistant message to the stream loop's history. -/
def appendAssistantStream (st : StreamSt) (m : AssistantMsg) : StreamSt :=
  { st with llm_messages := st.llm_messages ++ [Message.assistant m] }

/-- The stream round loop of `run_agent_stream`; the returned list is the
yielded event sequence of a run that does not raise. -/
def agent_stream_loop (provider : Provider) (env : DbEnv) (database_id : Int)
    (schema_name catalog : Option String) (max_sample_rows : Nat) :
    Nat → StreamSt → Except PyErr (List Event)
  | 0, st =>
    .ok (st.events
      ++ [.response (some BUDGET_MESSAGE) st.total_usage (some "max_rounds_exceeded")])
  | fuel + 1, st =>
    match provider st.llm_messages with
    | .error ex =>
      .ok (st.events ++ [.error ("Error communicating with AI: " ++ ex)])
    | .ok result =>
      if truthyCalls result.message.tool_calls
          && (result.finish_reason == "tool_calls" || result.finish_reason == "stop") then
        match (result.message.tool_calls.getD []).foldlM
            (fun s tc => process_tool_call_stream env database_id schema_name catalog
              max_sample_rows tc s)
            (appendAssistantStream (noteUsageStream st result.usage) result.message) with
        | .error e => .error e
        | .ok st =>
          agent_stream_loop provider env database_id schema_name catalog max_sample_rows fuel st
      else
        .ok (st.events
          ++ [.response result.message.content (addUsage st.total_usage result.usage) none])

/-- The empty initial stream state over an assembled conversation. -/
def initStreamSt (msgs : List Message) : StreamSt := ⟨msgs, ⟨0, 0, 0⟩, []⟩

/-- `run_agent_stream`: assemble the conversation, then run the stream loop. -/
def run_agent_stream (provider : Provider) (env : DbEnv) (cfg : AgentCfg)
    (messages : List ChatMsg) (database_id : Int)
    (database_name schema_name catalog current_sql : Option String) :
    Except PyErr (List Event) :=
  let system_prompt := build_system_prompt database_name schema_name current_sql
    cfg.system_prompt_extra
  let llm_messages := Message.chat "system" (some system_prompt)
    :: messages.map (fun m => Message.chat m.role m.content)
  agent_stream_loop provider env database_id schema_name catalog cfg.max_sample_rows
    cfg.max_tool_rounds (initStreamSt llm_messages)

/-- The seven names `execute_tool` dispatches on. -/
def toolCatalogNames : List String :=
  ["set_editor_sql", "list_schemas", "list_tables", "get_table_columns",
   "sample_table_data", "get_distinct_values", "execute_sql"]

/-- Whether a recorded Step belongs to a frontend-action tool call. -/
def isFrontendStep (s : Step) : Bool := decide (s.tool ∈ FRONTEND_ACTIONS)

/-- An Action dict whose `type` key names a frontend action. -/
def actionTypeOk (a : List (String × JVal)) : Prop :=
  ∃ t, dlookup a "type" = some (.jstr t) ∧ t ∈ FRONTEND_ACTIONS

/-- A tool call whose parsed argument mapping does not bind the key `type`. -/
def noTypeKey (tc : ToolCall) : Prop :=
  ∀ kvs, parsed_args tc = JVal.jobj kvs → dlookup kvs "type" = none

/-- A provider that on every call succeeds, requests at least one tool call
under an accepted finish reason, and requests only calls whose dispatch
through the Tool Registry returns a result (does not raise). -/
def providerDrivesTools (provider : Provider) (env : DbEnv) (database_id : Int)
    (schema_name catalog : Option String) (max_sample_rows : Nat) : Prop :=
  ∀ msgs, ∃ c, provider msgs = .ok c
    ∧ truthyCalls c.message.tool_calls = true
    ∧ (c.finish_reason = "tool_calls" ∨ c.finish_reason = "stop")
    ∧ ∀ tc ∈ c.message.tool_calls.getD [], ∃ r,
        execute_tool env tc.name (parsed_args tc) database_id schema_name catalog
          max_sample_rows = .ok r

/-- A provider none of whose requested tool calls binds an `type` argument
key. -/
def providerArgsNoTypeKey (provider : Provider) : Prop :=
  ∀ msgs c, provider msgs = .ok c → ∀ tc ∈ c.message.tool_calls.getD [], noTypeKey tc

/-- The Step payloads among a stream's emitted events, in order. -/
def eventSteps (evs : List Event) : List Step :=
  evs.filterMap (fun e => match e with | .step s => some s | _ => none)

/-- The Action payloads among a stream's emitted events, in order. -/
def eventActions (evs : List Event) : List (List (String × JVal)) :=
  evs.filterMap (fun e => match e with | .action a => some a | _ => none)

/-- A trivial database collaborator for concrete runs: every id found, all
operations succeed with empty results. -/
def envU : DbEnv where
  found := fun _ => true
  db_engine_spec_name := none
  get_all_schema_names := fun _ => .ok []
  get_all_table_names_in_schema := fun _ _ => .ok []
  get_columns := fun _ _ _ => .ok []
  execute := fun _ _ => .ok ([], [])

/-- A collaborator whose query execution returns two one-column rows. -/
def env2 : DbEnv := { envU with
  execute := fun _ _ => .ok ([[("c", .jstr "a")], [("c", .jstr "b")]], ["c"]) }

/-- A per-round usage object with every field missing. -/
def ru0 : RoundUsage := ⟨none, none, none⟩

/-- A configuration with a round budget of two. -/
def cfg2 : AgentCfg := ⟨2, 20, ""⟩

/-- A one-message user history. -/
def userHi : List ChatMsg := [⟨"user", some "hi"⟩]

/-- A provider that always requests `list_tables` with empty arguments. -/
def provC2 : Provider := fun _ =>
  .ok ⟨⟨some "", some [⟨"id1", "list_tables", .ok (.jobj [])⟩]⟩, "tool_calls", ru0⟩

/-- A provider that first requests `set_editor_sql` with arguments binding a
`type` key, then finishes. -/
def provC5 : Provider := fun msgs =>
  if msgs.length ≤ 2 then
    .ok ⟨⟨none, some [⟨"id1", "set_editor_sql",
      .ok (.jobj [("type", .jstr "evil"), ("sql", .jstr "q")])⟩]⟩, "tool_calls", ru0⟩
  else .ok ⟨⟨some "done", none⟩, "stop", ru0⟩

/-- A provider that requests `set_editor_sql` with argument text parsing to a
JSON array (valid JSON, not a mapping). -/
def provC8 : Provider := fun _ =>
  .ok ⟨⟨some "", some [⟨"c1", "set_editor_sql", .ok (.jarr [.jnum 1])⟩]⟩, "tool_calls", ru0⟩

/-- A provider that immediately stops with content and a usage triple. -/
def provFinal : Provider := fun _ =>
  .ok ⟨⟨some "hello", none⟩, "stop", ⟨some 3, some 4, some 7⟩⟩

/-- A provider whose call always raises. -/
def provErr : Provider := fun _ => .error "boom"

/-- A provider that always requests `list_schemas` (argument-free, so dispatch
never raises), reporting usage 1/2/3 each round. -/
def provSchemas : Provider := fun _ =>
  .ok ⟨⟨some "", some [⟨"id1", "list_schemas", .ok (.jobj [])⟩]⟩, "tool_calls",
    ⟨some 1, some 2, some 3⟩⟩

/-- A provider that returns a tool call together with a `length` finish
reason (outside the accepted pair). -/
def provLen : Provider := fun _ =>
  .ok ⟨⟨some "cut off", some [⟨"id1", "list_schemas", .ok (.jobj [])⟩]⟩, "length",
    ⟨some 5, some 6, some 11⟩⟩

@[simp]
theorem except_bind_ok {ε α β : Type} (x : α) (f : α → Except ε β) :
    (Except.ok x >>= f) = f x := rfl

@[simp]
theorem except_bind_err {ε α β : Type} (e : ε) (f : α → Except ε β) :
    ((Except.error e : Except ε α) >>= f) = .error e := rfl

@[simp]
theorem except_pure_eq {ε α : Type} (x : α) : (pure x : Except ε α) = .ok x := rfl

theorem dlookup_eq_none_iff (l : List (String × JVal)) (k : String) :
    dlookup l k = none ↔ ∀ p ∈ l, p.1 ≠ k := by
  induction l with
  | nil => simp [dlookup]
  | cons p rest ih =>
    obtain ⟨k', v'⟩ := p
    by_cases h : k' = k
    · subst h
      simp [dlookup]
    · simp [dlookup, h, ih]

theorem dlookup_dictInsert (d : List (String × JVal)) (k : String) (v : JVal)
    (k₂ : String) :
    dlookup (dictInsert d k v) k₂ = if k₂ = k then some v else dlookup d k₂ := by
  induction d with
  | nil =>
    simp only [dictInsert, dlookup]
    by_cases h : k₂ = k
    · subst h; simp
    · rw [if_neg (fun hh => h hh.symm), if_neg h]
  | cons p rest ih =>
    obtain ⟨k', v'⟩ := p
    simp only [dictInsert]
    by_cases hk : k' = k
    · subst hk
      rw [if_pos rfl]
      simp only [dlookup]
      by_cases h₂ : k' = k₂
      · subst h₂
        rw [if_pos rfl, if_pos rfl]
      · rw [if_neg h₂, if_neg (fun hh => h₂ hh.symm), if_neg h₂]
    · rw [if_neg hk]
      simp only [dlookup]
      by_cases h₂ : k' = k₂
      · subst h₂
        rw [if_pos rfl, if_neg hk, if_pos rfl]
      · rw [if_neg h₂, ih, if_neg h₂]

theorem dlookup_dictMerge_of_not_mem (e : List (String × JVal)) :
    ∀ (d : List (String × JVal)) (k : String), (∀ p ∈ e, p.1 ≠ k) →
    dlookup (dictMerge d e) k = dlookup d k := by
  induction e with
  | nil => intro d k _; rfl
  | cons kv rest ih =>
    intro d k h
    have h1 : kv.1 ≠ k := h kv (List.mem_cons_self kv rest)
    have hrest : ∀ p ∈ rest, p.1 ≠ k := fun p hp => h p (List.mem_cons_of_mem kv hp)
    show dlookup ((kv :: rest).foldl (fun acc p => dictInsert acc p.1 p.2) d) k
      = dlookup d k
    rw [List.foldl_cons]
    have : dlookup (dictMerge (dictInsert d kv.1 kv.2) rest) k
        = dlookup (dictInsert d kv.1 kv.2) k := ih _ k hrest
    rw [show (rest.foldl (fun acc p => dictInsert acc p.1 p.2) (dictInsert d kv.1 kv.2))
        = dictMerge (dictInsert d kv.1 kv.2) rest from rfl]
    rw [this, dlookup_dictInsert, if_neg (fun hh => h1 hh.symm)]

theorem firstValues_length : ∀ (l : List (List (String × JVal))) (vs : List JVal),
    firstValues l = .ok vs → vs.length = l.length := by
  intro l
  induction l with
  | nil => intro vs h; simp [firstValues] at h; simp [← h]
  | cons row rest ih =>
    intro vs h
    match row with
    | [] => simp [firstValues] at h
    | (k, v) :: r =>
      simp only [firstValues] at h
      cases hr : firstValues rest with
      | error e => rw [hr] at h; simp [Except.map] at h
      | ok vs0 =>
        rw [hr] at h
        simp only [Except.map] at h
        cases h
        simp [ih vs0 hr]

theorem foldl_addUsage_sums (l : List RoundUsage) : ∀ (z : Usage),
    (l.foldl addUsage z).prompt_tokens
      = z.prompt_tokens + (l.map (fun u => u.prompt_tokens.getD 0)).sum
    ∧ (l.foldl addUsage z).completion_tokens
      = z.completion_tokens + (l.map (fun u => u.completion_tokens.getD 0)).sum
    ∧ (l.foldl addUsage z).total_tokens
      = z.total_tokens + (l.map (fun u => u.total_tokens.getD 0)).sum := by
  induction l with
  | nil => intro z; simp
  | cons u rest ih =>
    intro z
    simp only [List.foldl_cons, List.map_cons, List.sum_cons]
    obtain ⟨h1, h2, h3⟩ := ih (addUsage z u)
    refine ⟨?_, ?_, ?_⟩
    · rw [h1]; simp [addUsage]; ring
    · rw [h2]; simp [addUsage]; ring
    · rw [h3]; simp [addUsage]; ring

theorem execute_tool_frontend_obj {env : DbEnv} {name : String} {args : JVal}
    {did : Int} {sn cat : Option String} {msr : Nat} {r : ToolResult}
    (hf : name ∈ FRONTEND_ACTIONS)
    (h : execute_tool env name args did sn cat msr = .ok r) :
    ∃ kvs, args = JVal.jobj kvs ∧ r = dictMerge [("action", .jstr name)] kvs := by
  unfold execute_tool at h
  rw [if_pos hf] at h
  cases args with
  | jnull => simp [dictSplat] at h
  | jbool b => simp [dictSplat] at h
  | jnum n => simp [dictSplat] at h
  | jstr s => simp [dictSplat] at h
  | jarr xs => simp [dictSplat] at h
  | jobj kvs => exact ⟨kvs, rfl, by simpa [dictSplat] using h.symm⟩

theorem process_tool_call_spec {env : DbEnv} {did : Int} {sn cat : Option String}
    {msr : Nat} {tc : ToolCall} {st st' : LoopSt}
    (h : process_tool_call env did sn cat msr tc st = .ok st') :
    st'.total_usage = st.total_usage ∧ st'.usages = st.usages
    ∧ st'.providerCalls = st.providerCalls
    ∧ st'.callsDispatched = st.callsDispatched + 1
    ∧ (∃ stp : Step, stp.tool = tc.name ∧ st'.steps = st.steps ++ [stp])
    ∧ (tc.name ∈ FRONTEND_ACTIONS →
         ∃ a, st'.actions = st.actions ++ [a]
           ∧ (noTypeKey tc → dlookup a "type" = some (.jstr tc.name)))
    ∧ (tc.name ∉ FRONTEND_ACTIONS → st'.actions = st.actions) := by
  unfold process_tool_call at h
  cases hE : execute_tool env tc.name (parsed_args tc) did sn cat msr with
  | error e => rw [hE] at h; simp at h
  | ok r =>
    rw [hE] at h
    simp only [except_bind_ok] at h
    by_cases hf : tc.name ∈ FRONTEND_ACTIONS
    · obtain ⟨kvs, hargs, hr⟩ := execute_tool_frontend_obj hf hE
      rw [if_pos hf, hargs] at h
      simp only [except_bind_ok, dictSplat, except_pure_eq, Except.ok.injEq] at h
      subst h
      refine ⟨rfl, rfl, rfl, rfl,
        ⟨⟨"tool_call", tc.name, JVal.jobj kvs, _summarize_result r⟩, rfl, rfl⟩,
        fun _ => ⟨dictMerge [("type", .jstr tc.name)] kvs, rfl, fun hnt => ?_⟩,
        fun hnf => absurd hf hnf⟩
      have hnone : dlookup kvs "type" = none := hnt kvs hargs
      rw [dlookup_dictMerge_of_not_mem kvs _ _ ((dlookup_eq_none_iff kvs "type").mp hnone)]
      rfl
    · rw [if_neg hf] at h
      simp only [except_bind_ok, except_pure_eq, Except.ok.injEq] at h
      subst h
      exact ⟨rfl, rfl, rfl, rfl,
        ⟨⟨"tool_call", tc.name, parsed_args tc, _summarize_result r⟩, rfl, rfl⟩,
        fun hmem => absurd hmem hf, fun _ => rfl⟩

theorem process_tool_call_stream_spec {env : DbEnv} {did : Int}
    {sn cat : Option String} {msr : Nat} {tc : ToolCall} {st st' : StreamSt}
    (h : process_tool_call_stream env did sn cat msr tc st = .ok st') :
    st'.total_usage = st.total_usage
    ∧ (tc.name ∈ FRONTEND_ACTIONS →
        ∃ (stp : Step) (a : List (String × JVal)), stp.tool = tc.name
          ∧ st'.events = st.events ++ [Event.step stp, Event.action a]
          ∧ (noTypeKey tc → dlookup a "type" = some (.jstr tc.name)))
    ∧ (tc.name ∉ FRONTEND_ACTIONS →
        ∃ stp : Step, stp.tool = tc.name ∧ st'.events = st.events ++ [Event.step stp]) := by
  unfold process_tool_call_stream at h
  cases hE : execute_tool env tc.name (parsed_args tc) did sn cat msr with
  | error e => rw [hE] at h; simp at h
  | ok r =>
    rw [hE] at h
    simp only [except_bind_ok] at h
    by_cases hf : tc.name ∈ FRONTEND_ACTIONS
    · obtain ⟨kvs, hargs, hr⟩ := execute_tool_frontend_obj hf hE
      rw [if_pos hf, hargs] at h
      simp only [except_bind_ok, dictSplat, except_pure_eq, Except.ok.injEq] at h
      subst h
      refine ⟨rfl, fun _ =>
        ⟨⟨"tool_call", tc.name, JVal.jobj kvs, _summarize_result r⟩,
         dictMerge [("type", .jstr tc.name)] kvs, rfl, by simp, fun hnt => ?_⟩,
        fun hnf => absurd hf hnf⟩
      have hnone : dlookup kvs "type" = none := hnt kvs hargs
      rw [dlookup_dictMerge_of_not_mem kvs _ _ ((dlookup_eq_none_iff kvs "type").mp hnone)]
      rfl
    · rw [if_neg hf] at h
      simp only [except_bind_ok, except_pure_eq, Except.ok.injEq] at h
      subst h
      exact ⟨rfl, fun hmem => absurd hmem hf,
        fun _ => ⟨⟨"tool_call", tc.name, parsed_args tc, _summarize_result r⟩, rfl, rfl⟩⟩

theorem foldlM_process_preserves {env : DbEnv} {did : Int} {sn cat : Option String}
    {msr : Nat} :
    ∀ (calls : List ToolCall) (st st' : LoopSt),
    calls.foldlM (fun s tc => process_tool_call env did sn cat msr tc s) st = .ok st' →
    st'.total_usage = st.total_usage ∧ st'.usages = st.usages
      ∧ st'.providerCalls = st.providerCalls := by
  intro calls
  induction calls with
  | nil =>
    intro st st' h
    simp only [List.foldlM, except_pure_eq, Except.ok.injEq] at h
    subst h
    exact ⟨rfl, rfl, rfl⟩
  | cons tc rest ih =>
    intro st st' h
    rw [List.foldlM_cons] at h
    cases hp : process_tool_call env did sn cat msr tc st with
    | error e => rw [hp] at h; simp at h
    | ok st₁ =>
      rw [hp] at h
      simp only [except_bind_ok] at h
      obtain ⟨h1, h2, h3⟩ := ih st₁ st' h
      obtain ⟨g1, g2, g3, -⟩ := process_tool_call_spec hp
      exact ⟨h1.trans g1, h2.trans g2, h3.trans g3⟩

theorem process_tool_call_ok {env : DbEnv} {did : Int} {sn cat : Option String}
    {msr : Nat} {tc : ToolCall} (st : LoopSt)
    (hok : ∃ r, execute_tool env tc.name (parsed_args tc) did sn cat msr = .ok r) :
    ∃ st', process_tool_call env did sn cat msr tc st = .ok st' := by
  obtain ⟨r, hE⟩ := hok
  unfold process_tool_call
  rw [hE]
  simp only [except_bind_ok]
  by_cases hf : tc.name ∈ FRONTEND_ACTIONS
  · obtain ⟨kvs, hargs, hr⟩ := execute_tool_frontend_obj hf hE
    rw [if_pos hf, hargs]
    exact ⟨_, rfl⟩
  · rw [if_neg hf]
    exact ⟨_, rfl⟩

theorem foldlM_process_ok {env : DbEnv} {did : Int} {sn cat : Option String}
    {msr : Nat} :
    ∀ (calls : List ToolCall) (st : LoopSt),
    (∀ tc ∈ calls, ∃ r,
      execute_tool env tc.name (parsed_args tc) did sn cat msr = .ok r) →
    ∃ st', calls.foldlM (fun s tc => process_tool_call env did sn cat msr tc s) st
      = .ok st' := by
  intro calls
  induction calls with
  | nil => intro st _; exact ⟨st, by simp [List.foldlM]⟩
  | cons tc rest ih =>
    intro st hall
    obtain ⟨st₁, h₁⟩ := process_tool_call_ok st (hall tc (List.mem_cons_self _ _))
    obtain ⟨st', h'⟩ := ih st₁ (fun tc2 htc2 => hall tc2 (List.mem_cons_of_mem _ htc2))
    exact ⟨st', by rw [List.foldlM_cons, h₁]; simpa using h'⟩

theorem agent_loop_usage {provider : Provider} {env : DbEnv} {did : Int}
    {sn cat : Option String} {msr : Nat} :
    ∀ (fuel : Nat) (st : LoopSt) (run : AgentRun),
    agent_loop provider env did sn cat msr fuel st = .ok run →
    ∃ tail, run.usages = st.usages ++ tail
      ∧ run.result.usage = tail.foldl addUsage st.total_usage := by
  intro fuel
  induction fuel with
  | zero =>
    intro st run h
    simp only [agent_loop, Except.ok.injEq] at h
    subst h
    exact ⟨[], by simp, rfl⟩
  | succ fuel ih =>
    intro st run h
    simp only [agent_loop] at h
    split at h
    · -- provider error
      simp only [Except.ok.injEq] at h
      subst h
      exact ⟨[], by simp, rfl⟩
    · -- provider success
      next c heq =>
      split at h
      · -- tool-call round
        split at h
        · simp at h
        · next st₂ heq2 =>
          obtain ⟨tail₂, hu, hv⟩ := ih _ _ h
          obtain ⟨p1, p2, p3⟩ := foldlM_process_preserves _ _ _ heq2
          refine ⟨c.usage :: tail₂, ?_, ?_⟩
          · rw [hu, p2]
            simp [appendAssistant, noteUsage]
          · rw [hv, p1]
            simp [appendAssistant, noteUsage, List.foldl_cons]
      · -- final response
        simp only [Except.ok.injEq] at h
        subst h
        exact ⟨[c.usage], rfl, by simp [List.foldl_cons]⟩

theorem foldlM_process_counts {env : DbEnv} {did : Int} {sn cat : Option String}
    {msr : Nat} :
    ∀ (calls : List ToolCall) (st st' : LoopSt),
    calls.foldlM (fun s tc => process_tool_call env did sn cat msr tc s) st = .ok st' →
    st.steps.length = st.callsDispatched →
    st.actions.length = (st.steps.filter isFrontendStep).length →
    st'.steps.length = st'.callsDispatched
      ∧ st'.actions.length = (st'.steps.filter isFrontendStep).length := by
  intro calls
  induction calls with
  | nil =>
    intro st st' h h1 h2
    simp only [List.foldlM, except_pure_eq, Except.ok.injEq] at h
    subst h
    exact ⟨h1, h2⟩
  | cons tc rest ih =>
    intro st st' h h1 h2
    rw [List.foldlM_cons] at h
    cases hp : process_tool_call env did sn cat msr tc st with
    | error e => rw [hp] at h; simp at h
    | ok st₁ =>
      rw [hp] at h
      simp only [except_bind_ok] at h
      obtain ⟨-, -, -, g4, ⟨stp, hstool, hsteps⟩, gfe, gnfe⟩ := process_tool_call_spec hp
      apply ih st₁ st' h
      · rw [hsteps, g4, List.length_append, h1]
        simp
      · by_cases hf : tc.name ∈ FRONTEND_ACTIONS
        · obtain ⟨a, hact, -⟩ := gfe hf
          have hfe : isFrontendStep stp = true := by simp [isFrontendStep, hstool, hf]
          rw [hact, hsteps, List.length_append, h2, List.filter_append]
          simp [List.filter, hfe]
        · have hfe : isFrontendStep stp = false := by simp [isFrontendStep, hstool, hf]
          rw [gnfe hf, hsteps, List.filter_append, h2]
          simp [List.filter, hfe]

theorem foldlM_process_types {env : DbEnv} {did : Int} {sn cat : Option String}
    {msr : Nat} :
    ∀ (calls : List ToolCall) (st st' : LoopSt),
    calls.foldlM (fun s tc => process_tool_call env did sn cat msr tc s) st = .ok st' →
    (∀ tc ∈ calls, noTypeKey tc) →
    (∀ a ∈ st.actions, actionTypeOk a) →
    ∀ a ∈ st'.actions, actionTypeOk a := by
  intro calls
  induction calls with
  | nil =>
    intro st st' h _ h2
    simp only [List.foldlM, except_pure_eq, Except.ok.injEq] at h
    subst h
    exact h2
  | cons tc rest ih =>
    intro st st' h hnt h2
    rw [List.foldlM_cons] at h
    cases hp : process_tool_call env did sn cat msr tc st with
    | error e => rw [hp] at h; simp at h
    | ok st₁ =>
      rw [hp] at h
      simp only [except_bind_ok] at h
      obtain ⟨-, -, -, -, -, gfe, gnfe⟩ := process_tool_call_spec hp
      apply ih st₁ st' h (fun tc2 htc2 => hnt tc2 (List.mem_cons_of_mem _ htc2))
      by_cases hf : tc.name ∈ FRONTEND_ACTIONS
      · obtain ⟨a, hact, hty⟩ := gfe hf
        rw [hact]
        intro a' ha'
        rcases List.mem_append.mp ha' with hin | hin
        · exact h2 a' hin
        · have : a' = a := List.mem_singleton.mp hin
          subst this
          exact ⟨tc.name, hty (hnt tc (List.mem_cons_self _ _)), hf⟩
      · rw [gnfe hf]
        exact h2

theorem agent_loop_counts {provider : Provider} {env : DbEnv} {did : Int}
    {sn cat : Option String} {msr : Nat} :
    ∀ (fuel : Nat) (st : LoopSt) (run : AgentRun),
    agent_loop provider env did sn cat msr fuel st = .ok run →
    st.steps.length = st.callsDispatched →
    st.actions.length = (st.steps.filter isFrontendStep).length →
    run.result.steps.length = run.callsDispatched
      ∧ run.result.actions.length = (run.result.steps.filter isFrontendStep).length := by
  intro fuel
  induction fuel with
  | zero =>
    intro st run h h1 h2
    simp only [agent_loop, Except.ok.injEq] at h
    subst h
    exact ⟨h1, h2⟩
  | succ fuel ih =>
    intro st run h h1 h2
    simp only [agent_loop] at h
    split at h
    · simp only [Except.ok.injEq] at h
      subst h
      exact ⟨h1, h2⟩
    · next c heq =>
      split at h
      · split at h
        · simp at h
        · next st₂ heq2 =>
          apply ih _ _ h
          · exact (foldlM_process_counts _ _ _ heq2 (by simpa [appendAssistant, noteUsage] using h1)
              (by simpa [appendAssistant, noteUsage] using h2)).1
          · exact (foldlM_process_counts _ _ _ heq2 (by simpa [appendAssistant, noteUsage] using h1)
              (by simpa [appendAssistant, noteUsage] using h2)).2
      · simp only [Except.ok.injEq] at h
        subst h
        exact ⟨h1, h2⟩

theorem agent_loop_types {provider : Provider} {env : DbEnv} {did : Int}
    {sn cat : Option String} {msr : Nat} (Hty : providerArgsNoTypeKey provider) :
    ∀ (fuel : Nat) (st : LoopSt) (run : AgentRun),
    agent_loop provider env did sn cat msr fuel st = .ok run →
    (∀ a ∈ st.actions, actionTypeOk a) →
    ∀ a ∈ run.result.actions, actionTypeOk a := by
  intro fuel
  induction fuel with
  | zero =>
    intro st run h h2
    simp only [agent_loop, Except.ok.injEq] at h
    subst h
    exact h2
  | succ fuel ih =>
    intro st run h h2
    simp only [agent_loop] at h
    split at h
    · simp only [Except.ok.injEq] at h
      subst h
      exact h2
    · next c heq =>
      split at h
      · split at h
        · simp at h
        · next st₂ heq2 =>
          apply ih _ _ h
          exact foldlM_process_types _ _ _ heq2 (Hty _ _ heq)
            (by simpa [appendAssistant, noteUsage] using h2)
      · simp only [Except.ok.injEq] at h
        subst h
        exact h2

theorem agent_loop_budget {provider : Provider} {env : DbEnv} {did : Int}
    {sn cat : Option String} {msr : Nat}
    (H : providerDrivesTools provider env did sn cat msr) :
    ∀ (fuel : Nat) (st : LoopSt),
    ∃ run, agent_loop provider env did sn cat msr fuel st = .ok run
      ∧ run.providerCalls = st.providerCalls + fuel
      ∧ run.result.warning = some "max_rounds_exceeded"
      ∧ run.result.error = false
      ∧ run.result.response = some BUDGET_MESSAGE := by
  intro fuel
  induction fuel with
  | zero => intro st; exact ⟨_, rfl, by simp, rfl, rfl, rfl⟩
  | succ fuel ih =>
    intro st
    obtain ⟨c, hp, htr, hfin, hall⟩ := H st.llm_messages
    have hcond : (truthyCalls c.message.tool_calls
        && (c.finish_reason == "tool_calls" || c.finish_reason == "stop")) = true := by
      rw [htr]
      rcases hfin with hfr | hfr <;> simp [hfr]
    obtain ⟨st₂, hfold⟩ := foldlM_process_ok (c.message.tool_calls.getD [])
      (appendAssistant (noteUsage st c.usage) c.message) hall
    obtain ⟨run, hrun, hpc, hw, he, hr⟩ := ih st₂
    obtain ⟨-, -, p3⟩ := foldlM_process_preserves _ _ _ hfold
    refine ⟨run, ?_, ?_, hw, he, hr⟩
    · simp only [agent_loop, hp]
      rw [if_pos hcond, hfold]
      exact hrun
    · rw [hpc, p3]
      simp only [appendAssistant, noteUsage]
      omega

theorem eventSteps_append (a b : List Event) :
    eventSteps (a ++ b) = eventSteps a ++ eventSteps b := by
  simp [eventSteps, List.filterMap_append]

theorem eventActions_append (a b : List Event) :
    eventActions (a ++ b) = eventActions a ++ eventActions b := by
  simp [eventActions, List.filterMap_append]

theorem foldlM_process_stream_counts {env : DbEnv} {did : Int}
    {sn cat : Option String} {msr : Nat} :
    ∀ (calls : List ToolCall) (st st' : StreamSt),
    calls.foldlM (fun s tc => process_tool_call_stream env did sn cat msr tc s) st
      = .ok st' →
    (eventActions st.events).length = ((eventSteps st.events).filter isFrontendStep).length →
    (eventActions st'.events).length
      = ((eventSteps st'.events).filter isFrontendStep).length := by
  intro calls
  induction calls with
  | nil =>
    intro st st' h h2
    simp only [List.foldlM, except_pure_eq, Except.ok.injEq] at h
    subst h
    exact h2
  | cons tc rest ih =>
    intro st st' h h2
    rw [List.foldlM_cons] at h
    cases hp : process_tool_call_stream env did sn cat msr tc st with
    | error e => rw [hp] at h; simp at h
    | ok st₁ =>
      rw [hp] at h
      simp only [except_bind_ok] at h
      obtain ⟨-, gfe, gnfe⟩ := process_tool_call_stream_spec hp
      apply ih st₁ st' h
      by_cases hf : tc.name ∈ FRONTEND_ACTIONS
      · obtain ⟨stp, a, hstool, hev, -⟩ := gfe hf
        have hfe : isFrontendStep stp = true := by simp [isFrontendStep, hstool, hf]
        rw [hev, eventActions_append, eventSteps_append, List.length_append,
          List.filter_append, h2]
        simp [eventSteps, eventActions, List.filter, hfe]
      · obtain ⟨stp, hstool, hev⟩ := gnfe hf
        have hfe : isFrontendStep stp = false := by simp [isFrontendStep, hstool, hf]
        rw [hev, eventActions_append, eventSteps_append, List.length_append,
          List.filter_append, h2]
        simp [eventSteps, eventActions, List.filter, hfe]

theorem foldlM_process_stream_types {env : DbEnv} {did : Int}
    {sn cat : Option String} {msr : Nat} :
    ∀ (calls : List ToolCall) (st st' : StreamSt),
    calls.foldlM (fun s tc => process_tool_call_stream env did sn cat msr tc s) st
      = .ok st' →
    (∀ tc ∈ calls, noTypeKey tc) →
    (∀ a ∈ eventActions st.events, actionTypeOk a) →
    ∀ a ∈ eventActions st'.events, actionTypeOk a := by
  intro calls
  induction calls with
  | nil =>
    intro st st' h _ h2
    simp only [List.foldlM, except_pure_eq, Except.ok.injEq] at h
    subst h
    exact h2
  | cons tc rest ih =>
    intro st st' h hnt h2
    rw [List.foldlM_cons] at h
    cases hp : process_tool_call_stream env did sn cat msr tc st with
    | error e => rw [hp] at h; simp at h
    | ok st₁ =>
      rw [hp] at h
      simp only [except_bind_ok] at h
      obtain ⟨-, gfe, gnfe⟩ := process_tool_call_stream_spec hp
      apply ih st₁ st' h (fun tc2 htc2 => hnt tc2 (List.mem_cons_of_mem _ htc2))
      by_cases hf : tc.name ∈ FRONTEND_ACTIONS
      · obtain ⟨stp, a, hstool, hev, hty⟩ := gfe hf
        rw [hev, eventActions_append]
        intro a' ha'
        rcases List.mem_append.mp ha' with hin | hin
        · exact h2 a' hin
        · have ha : a' = a := by
            simpa [eventSteps, eventActions] using hin
          subst ha
          exact ⟨tc.name, hty (hnt tc (List.mem_cons_self _ _)), hf⟩
      · obtain ⟨stp, -, hev⟩ := gnfe hf
        rw [hev, eventActions_append]
        intro a' ha'
        rcases List.mem_append.mp ha' with hin | hin
        · exact h2 a' hin
        · simp [eventActions] at hin

theorem agent_stream_loop_counts {provider : Provider} {env : DbEnv} {did : Int}
    {sn cat : Option String} {msr : Nat} :
    ∀ (fuel : Nat) (st : StreamSt) (evs : List Event),
    agent_stream_loop provider env did sn cat msr fuel st = .ok evs →
    (eventActions st.events).length = ((eventSteps st.events).filter isFrontendStep).length →
    (eventActions evs).length = ((eventSteps evs).filter isFrontendStep).length := by
  intro fuel
  induction fuel with
  | zero =>
    intro st evs h h2
    simp only [agent_stream_loop, Except.ok.injEq] at h
    subst h
    rw [eventActions_append, eventSteps_append]
    simpa [eventSteps, eventActions] using h2
  | succ fuel ih =>
    intro st evs h h2
    simp only [agent_stream_loop] at h
    split at h
    · simp only [Except.ok.injEq] at h
      subst h
      rw [eventActions_append, eventSteps_append]
      simpa [eventSteps, eventActions] using h2
    · next c heq =>
      split at h
      · split at h
        · simp at h
        · next st₂ heq2 =>
          exact ih _ _ h (foldlM_process_stream_counts _ _ _ heq2
            (by simpa [appendAssistantStream, noteUsageStream] using h2))
      · simp only [Except.ok.injEq] at h
        subst h
        rw [eventActions_append, eventSteps_append]
        simpa [eventSteps, eventActions] using h2

theorem agent_stream_loop_types {provider : Provider} {env : DbEnv} {did : Int}
    {sn cat : Option String} {msr : Nat} (Hty : providerArgsNoTypeKey provider) :
    ∀ (fuel : Nat) (st : StreamSt) (evs : List Event),
    agent_stream_loop provider env did sn cat msr fuel st = .ok evs →
    (∀ a ∈ eventActions st.events, actionTypeOk a) →
    ∀ a ∈ eventActions evs, actionTypeOk a := by
  intro fuel
  induction fuel with
  | zero =>
    intro st evs h h2
    simp only [agent_stream_loop, Except.ok.injEq] at h
    subst h
    rw [eventActions_append]
    intro a ha
    rcases List.mem_append.mp ha with hin | hin
    · exact h2 a hin
    · simp [eventActions] at hin
  | succ fuel ih =>
    intro st evs h h2
    simp only [agent_stream_loop] at h
    split at h
    · simp only [Except.ok.injEq] at h
      subst h
      rw [eventActions_append]
      intro a ha
      rcases List.mem_append.mp ha with hin | hin
      · exact h2 a hin
      · simp [eventActions] at hin
    · next c heq =>
      split at h
      · split at h
        · simp at h
        · next st₂ heq2 =>
          exact ih _ _ h (foldlM_process_stream_types _ _ _ heq2 (Hty _ _ heq)
            (by simpa [appendAssistantStream, noteUsageStream] using h2))
      · simp only [Except.ok.injEq] at h
        subst h
        rw [eventActions_append]
        intro a ha
        rcases List.mem_append.mp ha with hin | hin
        · exact h2 a hin
        · simp [eventActions] at hin

theorem except_bind_ok_inv {ε α β : Type} {x : Except ε α} {f : α → Except ε β} {b : β}
    (h : (x >>= f) = .ok b) : ∃ a, x = .ok a ∧ f a = .ok b := by
  cases x with
  | error e => simp at h
  | ok a => exact ⟨a, rfl, by simpa using h⟩

theorem length_filter_split (l : List Step) (p : Step → Bool) :
    l.length = (l.filter p).length + (l.filter (fun s => !(p s))).length := by
  induction l with
  | nil => simp
  | cons s rest ih =>
    by_cases h : p s = true
    · simp [List.filter_cons, h]
      omega
    · have h' : p s = false := by simpa using h
      simp [List.filter_cons, h']
      omega

/-- C1 counterexample: a server-executed tool (`execute_sql`) invoked with a
required field (`sql`) missing from the argument mapping does not yield an
`{error: "... required ..."}` result — the dispatch raises `KeyError("sql")`
across the Tool Registry boundary (`.error` models the uncaught exception),
so no ToolResult is returned, no Step is recorded, and the round does not
continue. -/
theorem claim_C1_counterexample :
    execute_tool envU "execute_sql" (.jobj []) 1 none none 20
      = .error (.keyError "sql") := rfl

/-- C1 (amended): unknown tool names yield an `{error: "Unknown tool: …"}`
result rather than raising, for any arguments and any database collaborator;
but a server-executed tool invoked with a required field missing raises a
KeyError across the Tool Registry boundary, and the loop's per-call
processing then aborts with that exception — no Step is recorded for the
call and the round does not continue. -/
theorem claim_C1_theorem (name : String) (args : JVal) (env : DbEnv) (did : Int)
    (sn cat : Option String) (msr : Nat) (st : LoopSt)
    (h : name ∉ toolCatalogNames) :
    execute_tool env name args did sn cat msr
      = .ok [("error", .jstr ("Unknown tool: " ++ name))]
    ∧ process_tool_call env did sn cat msr ⟨"id", "execute_sql", .ok (.jobj [])⟩ st
      = .error (.keyError "sql") := by
  constructor
  · simp only [toolCatalogNames, List.mem_cons, List.not_mem_nil, or_false,
      not_or] at h
    obtain ⟨h1, h2, h3, h4, h5, h6, h7⟩ := h
    simp [execute_tool, FRONTEND_ACTIONS, h1, h2, h3, h4, h5, h6, h7]
  · rfl

/-- C1 witness: the amended claim at the concrete unknown name `frobnicate`
and the concrete `execute_sql` call with empty arguments. -/
theorem claim_C1_witness :
    execute_tool envU "frobnicate" (.jobj []) 1 none none 20
      = .ok [("error", .jstr ("Unknown tool: " ++ "frobnicate"))]
    ∧ process_tool_call envU 1 none none 20 ⟨"id", "execute_sql", .ok (.jobj [])⟩
        (initLoopSt []) = .error (.keyError "sql") :=
  claim_C1_theorem "frobnicate" (.jobj []) envU 1 none none 20 (initLoopSt [])
    (by decide)

/-- C2 counterexample: with `max_tool_rounds = 2` and a provider returning a
tool call (finish reason `tool_calls`) on every round, the run does not
terminate in BUDGET_EXCEEDED after exactly 2 provider calls: the requested
`list_tables` call lacks its required `schema_name` argument, so round 1
raises KeyError and the invocation aborts with an exception instead. -/
theorem claim_C2_counterexample :
    run_agent provC2 envU cfg2 userHi 1 none none none none
      = .error (.keyError "schema_name") := rfl

/-- C2 (amended): with `max_tool_rounds = N`, if the provider returns tool
calls (with a `tool_calls` or `stop` finish reason) on every round **and
every requested call dispatches without an uncaught exception**, the loop
performs exactly N provider calls and terminates in BUDGET_EXCEEDED at round
N, returning the fixed apologetic message, the `max_rounds_exceeded` warning
marker, accumulated state, and no error flag. -/
theorem claim_C2_theorem (provider : Provider) (env : DbEnv) (cfg : AgentCfg)
    (messages : List ChatMsg) (did : Int) (dn sn cat csql : Option String)
    (H : providerDrivesTools provider env did sn cat cfg.max_sample_rows) :
    ∃ run, run_agent provider env cfg messages did dn sn cat csql = .ok run
      ∧ run.providerCalls = cfg.max_tool_rounds
      ∧ run.result.warning = some "max_rounds_exceeded"
      ∧ run.result.error = false
      ∧ run.result.response = some BUDGET_MESSAGE := by
  obtain ⟨run, hrun, hpc, hw, he, hr⟩ :=
    agent_loop_budget H cfg.max_tool_rounds
      (initLoopSt (Message.chat "system"
          (some (build_system_prompt dn sn csql cfg.system_prompt_extra))
        :: messages.map (fun m => Message.chat m.role m.content)))
  refine ⟨run, hrun, ?_, hw, he, hr⟩
  rw [hpc]
  simp [initLoopSt]

/-- C2 witness: the amended claim at a concrete provider that requests the
argument-free `list_schemas` tool every round, with a budget of 2. -/
theorem claim_C2_witness :
    ∃ run, run_agent provSchemas envU cfg2 userHi 1 none none none none = .ok run
      ∧ run.providerCalls = cfg2.max_tool_rounds
      ∧ run.result.warning = some "max_rounds_exceeded"
      ∧ run.result.error = false
      ∧ run.result.response = some BUDGET_MESSAGE :=
  claim_C2_theorem provSchemas envU cfg2 userHi 1 none none none none
    (fun msgs => ⟨_, rfl, rfl, Or.inl rfl, by
      intro tc htc
      simp only [Option.getD_some, List.mem_singleton] at htc
      subst htc
      exact ⟨_, rfl⟩⟩)

/-- C3: for every batch invocation that returns (any terminal state), each
field of the returned usage accumulator equals the exact sum of that field
over the per-round usage objects returned by the Provider Adapter, with a
missing field counted as zero. -/
theorem claim_C3_theorem (provider : Provider) (env : DbEnv) (cfg : AgentCfg)
    (messages : List ChatMsg) (did : Int) (dn sn cat csql : Option String)
    (run : AgentRun)
    (h : run_agent provider env cfg messages did dn sn cat csql = .ok run) :
    run.result.usage.prompt_tokens
      = (run.usages.map (fun u => u.prompt_tokens.getD 0)).sum
    ∧ run.result.usage.completion_tokens
      = (run.usages.map (fun u => u.completion_tokens.getD 0)).sum
    ∧ run.result.usage.total_tokens
      = (run.usages.map (fun u => u.total_tokens.getD 0)).sum := by
  have h' : agent_loop provider env did sn cat cfg.max_sample_rows
      cfg.max_tool_rounds
      (initLoopSt (Message.chat "system"
          (some (build_system_prompt dn sn csql cfg.system_prompt_extra))
        :: messages.map (fun m => Message.chat m.role m.content))) = .ok run := h
  obtain ⟨tail, hu, hv⟩ := agent_loop_usage _ _ _ h'
  have htail : run.usages = tail := by simpa [initLoopSt] using hu
  have h0 : run.result.usage = tail.foldl addUsage ⟨0, 0, 0⟩ := hv
  obtain ⟨s1, s2, s3⟩ := foldl_addUsage_sums tail ⟨0, 0, 0⟩
  rw [htail, h0]
  exact ⟨by rw [s1]; simp, by rw [s2]; simp, by rw [s3]; simp⟩

/-- C3 witness: the usage invariant at a concrete single-round run reporting
usage 3/4/7. -/
theorem claim_C3_witness :
    ∃ run, run_agent provFinal envU cfg2 userHi 1 none none none none = .ok run
      ∧ run.result.usage.prompt_tokens
          = (run.usages.map (fun u => u.prompt_tokens.getD 0)).sum
      ∧ run.result.usage.completion_tokens
          = (run.usages.map (fun u => u.completion_tokens.getD 0)).sum
      ∧ run.result.usage.total_tokens
          = (run.usages.map (fun u => u.total_tokens.getD 0)).sum :=
  ⟨_, rfl, claim_C3_theorem provFinal envU cfg2 userHi 1 none none none none _ rfl⟩

/-- C4: if the Provider Adapter raises at the round about to run, the batch
loop terminates immediately with an error-flagged result preserving exactly
the accumulated steps, actions and usage (the per-round usage list is
unchanged: no usage from the failed round is added), and the stream loop
emits a terminal error event after the events already emitted, which are
preserved. -/
theorem claim_C4_theorem (provider : Provider) (env : DbEnv) (did : Int)
    (sn cat : Option String) (msr : Nat) (fuel : Nat) (st : LoopSt)
    (sst : StreamSt) (e e' : String)
    (hb : provider st.llm_messages = .error e)
    (hs : provider sst.llm_messages = .error e') :
    agent_loop provider env did sn cat msr (fuel + 1) st
      = .ok ⟨{ response := some ("Error communicating with AI: " ++ e),
               actions := st.actions, steps := st.steps, usage := st.total_usage,
               error := true, warning := none },
             st.usages, st.providerCalls + 1, st.callsDispatched⟩
    ∧ agent_stream_loop provider env did sn cat msr (fuel + 1) sst
      = .ok (sst.events ++ [Event.error ("Error communicating with AI: " ++ e')]) := by
  constructor
  · simp only [agent_loop, hb]
  · simp only [agent_stream_loop, hs]

/-- C4 witness: the provider-error shape at a concrete provider that raises
`boom` on its first call, from the empty initial states. -/
theorem claim_C4_witness :
    agent_loop provErr envU 1 none none 20 1 (initLoopSt [])
      = .ok ⟨{ response := some ("Error communicating with AI: " ++ "boom"),
               actions := [], steps := [], usage := ⟨0, 0, 0⟩,
               error := true, warning := none },
             [], 1, 0⟩
    ∧ agent_stream_loop provErr envU 1 none none 20 1 (initStreamSt [])
      = .ok ([] ++ [Event.error ("Error communicating with AI: " ++ "boom")]) :=
  claim_C4_theorem provErr envU 1 none none 20 0 (initLoopSt []) (initStreamSt [])
    "boom" "boom" rfl rfl

/-- C5 counterexample: an action's `type` is **not** always drawn from the
frontend-action set: the recorded Action dict is `{"type": tool_name,
**tool_args}`, so arguments binding `type` override it.  A run whose
`set_editor_sql` call carries arguments `{"type": "evil", "sql": "q"}`
reaches a terminal state whose single recorded action has type `evil`,
outside the frontend-action set. -/
theorem claim_C5_counterexample :
    ∃ run, run_agent provC5 envU cfg2 userHi 1 none none none none = .ok run
      ∧ run.result.actions = [[("type", .jstr "evil"), ("sql", .jstr "q")]]
      ∧ ¬ actionTypeOk [("type", .jstr "evil"), ("sql", .jstr "q")] := by
  refine ⟨_, rfl, rfl, ?_⟩
  rintro ⟨t, ht, hmem⟩
  rw [show dlookup [("type", JVal.jstr "evil"), ("sql", JVal.jstr "q")] "type"
      = some (JVal.jstr "evil") from rfl] at ht
  simp only [Option.some.injEq, JVal.jstr.injEq] at ht
  subst ht
  simp [FRONTEND_ACTIONS] at hmem

/-- C5 (amended): at every terminal state, the number of Steps equals the
number of dispatched tool calls (a Step per call, none dropped), and equals
the number of Actions plus the number of server-executed (non-frontend)
calls; every recorded Action's `type` is drawn from the frontend-action set
**provided** no requested call's parsed argument mapping binds the key
`type` (the `{"type": name, **args}` merge lets such an argument override
it).  Both the batch result and the stream event sequence satisfy the
counting and typing properties. -/
theorem claim_C5_theorem (provider : Provider) (env : DbEnv) (cfg : AgentCfg)
    (messages : List ChatMsg) (did : Int) (dn sn cat csql : Option String) :
    (∀ run, run_agent provider env cfg messages did dn sn cat csql = .ok run →
      run.result.steps.length = run.callsDispatched
      ∧ run.result.steps.length = run.result.actions.length
          + (run.result.steps.filter (fun s => !(isFrontendStep s))).length
      ∧ (providerArgsNoTypeKey provider → ∀ a ∈ run.result.actions, actionTypeOk a))
    ∧ (∀ evs, run_agent_stream provider env cfg messages did dn sn cat csql = .ok evs →
      (eventActions evs).length = ((eventSteps evs).filter isFrontendStep).length
      ∧ (providerArgsNoTypeKey provider → ∀ a ∈ eventActions evs, actionTypeOk a)) := by
  constructor
  · intro run h
    have h' : agent_loop provider env did sn cat cfg.max_sample_rows
        cfg.max_tool_rounds
        (initLoopSt (Message.chat "system"
            (some (build_system_prompt dn sn csql cfg.system_prompt_extra))
          :: messages.map (fun m => Message.chat m.role m.content))) = .ok run := h
    obtain ⟨g1, g2⟩ := agent_loop_counts _ _ _ h' rfl rfl
    refine ⟨g1, ?_, fun Hty => agent_loop_types Hty _ _ _ h'
      (by intro a ha; simp [initLoopSt] at ha)⟩
    have hsplit := length_filter_split run.result.steps isFrontendStep
    rw [← g2] at hsplit
    exact hsplit
  · intro evs h
    have h' : agent_stream_loop provider env did sn cat cfg.max_sample_rows
        cfg.max_tool_rounds
        (initStreamSt (Message.chat "system"
            (some (build_system_prompt dn sn csql cfg.system_prompt_extra))
          :: messages.map (fun m => Message.chat m.role m.content))) = .ok evs := h
    refine ⟨agent_stream_loop_counts _ _ _ h' rfl, fun Hty =>
      agent_stream_loop_types Hty _ _ _ h'
        (by intro a ha; simp [eventActions, initStreamSt] at ha)⟩

/-- C5 witness: the amended claim at a concrete two-round budget run whose
requested `list_schemas` calls carry empty argument mappings. -/
theorem claim_C5_witness :
    ∃ run, run_agent provSchemas envU cfg2 userHi 1 none none none none = .ok run
      ∧ run.result.steps.length = run.callsDispatched
      ∧ run.result.steps.length = run.result.actions.length
          + (run.result.steps.filter (fun s => !(isFrontendStep s))).length
      ∧ (∀ a ∈ run.result.actions, actionTypeOk a) := by
  obtain ⟨hbatch, -⟩ := claim_C5_theorem provSchemas envU cfg2 userHi 1 none none none none
  obtain ⟨g1, g2, g3⟩ := hbatch _ rfl
  refine ⟨_, rfl, g1, g2, g3 ?_⟩
  intro msgs c hc tc htc
  obtain rfl := (Except.ok.inj hc).symm
  simp only [Option.getD_some, List.mem_singleton] at htc
  subst htc
  intro kvs hkv
  injection hkv with hk
  subst hk
  rfl

/-- C6: `execute_sql`'s guard — for every SQL string whose trimmed,
upper-cased text does not begin with `SELECT` or `WITH`, the tool returns
exactly the fixed policy-error result, identically for every database
collaborator (so the collaborator is never consulted); conversely, a string
that does begin with `SELECT` or `WITH` after trimming passes the check and
proceeds to the post-guard query body. -/
theorem claim_C6_theorem (s : String) (env env' : DbEnv) (did : Int)
    (snO cat : Option String) (mr : Nat) :
    (¬(py_startswith (py_upper (py_strip s)) "SELECT" = true
        ∨ py_startswith (py_upper (py_strip s)) "WITH" = true) →
      tool_execute_sql env did (.jstr s) snO cat mr
        = [("error", .jstr "Only SELECT and WITH (CTE) queries are allowed for safety")]
      ∧ tool_execute_sql env did (.jstr s) snO cat mr
        = tool_execute_sql env' did (.jstr s) snO cat mr)
    ∧ ((py_startswith (py_upper (py_strip s)) "SELECT" = true
        ∨ py_startswith (py_upper (py_strip s)) "WITH" = true) →
      tool_execute_sql env did (.jstr s) snO cat mr
        = execute_sql_query env did s snO cat mr (.jstr s)) := by
  constructor
  · intro h
    push_neg at h
    obtain ⟨h1, h2⟩ := h
    have hb1 : py_startswith (py_upper (py_strip s)) "SELECT" = false := by
      simpa using h1
    have hb2 : py_startswith (py_upper (py_strip s)) "WITH" = false := by
      simpa using h2
    constructor <;> simp [tool_execute_sql, hb1, hb2]
  · intro h
    rcases h with h | h <;> simp [tool_execute_sql, h]

/-- C6 witness: `DROP TABLE x` is rejected with the fixed error result, and
`  select 1` passes the guard into the query body. -/
theorem claim_C6_witness :
    tool_execute_sql envU 1 (.jstr "DROP TABLE x") none none 50
      = [("error", .jstr "Only SELECT and WITH (CTE) queries are allowed for safety")]
    ∧ tool_execute_sql envU 1 (.jstr "  select 1") none none 50
      = execute_sql_query envU 1 "  select 1" none none 50 (.jstr "  select 1") :=
  ⟨(( claim_C6_theorem "DROP TABLE x" envU env2 1 none none 50).1 (by decide)).1,
   ( claim_C6_theorem "  select 1" envU env2 1 none none 50).2 (by decide)⟩

/-- C7: a `set_editor_sql` call short-circuits in dispatch, returning
`{action: "set_editor_sql", sql: <argument>}` verbatim for every database
collaborator (no server-side execution); the batch loop records an Action
`{type: "set_editor_sql", sql: …}` and a Step, and appends a tool-role
message whose content is the serialized result and whose `tool_call_id` is
the originating call's id; the stream loop emits the step and action events
and appends the same tool-role message. -/
theorem claim_C7_theorem (env env' : DbEnv) (did : Int) (sn cat : Option String)
    (msr : Nat) (s cid : String) (st : LoopSt) (sst : StreamSt) :
    execute_tool env "set_editor_sql" (.jobj [("sql", .jstr s)]) did sn cat msr
      = .ok [("action", .jstr "set_editor_sql"), ("sql", .jstr s)]
    ∧ execute_tool env "set_editor_sql" (.jobj [("sql", .jstr s)]) did sn cat msr
      = execute_tool env' "set_editor_sql" (.jobj [("sql", .jstr s)]) did sn cat msr
    ∧ process_tool_call env did sn cat msr
        ⟨cid, "set_editor_sql", .ok (.jobj [("sql", .jstr s)])⟩ st
      = .ok { st with
          actions := st.actions ++ [[("type", .jstr "set_editor_sql"), ("sql", .jstr s)]],
          steps := st.steps ++ [⟨"tool_call", "set_editor_sql",
            .jobj [("sql", .jstr s)], "Frontend action: set_editor_sql"⟩],
          llm_messages := st.llm_messages ++ [Message.tool cid
            (dumpsV (.jobj [("action", .jstr "set_editor_sql"), ("sql", .jstr s)]))],
          callsDispatched := st.callsDispatched + 1 }
    ∧ process_tool_call_stream env did sn cat msr
        ⟨cid, "set_editor_sql", .ok (.jobj [("sql", .jstr s)])⟩ sst
      = .ok { sst with
          events := sst.events ++ [Event.step ⟨"tool_call", "set_editor_sql",
              .jobj [("sql", .jstr s)], "Frontend action: set_editor_sql"⟩,
            Event.action [("type", .jstr "set_editor_sql"), ("sql", .jstr s)]],
          llm_messages := sst.llm_messages ++ [Message.tool cid
            (dumpsV (.jobj [("action", .jstr "set_editor_sql"), ("sql", .jstr s)]))] } := by
  refine ⟨rfl, rfl, rfl, ?_⟩
  have hstep : process_tool_call_stream env did sn cat msr
      ⟨cid, "set_editor_sql", .ok (.jobj [("sql", .jstr s)])⟩ sst
    = .ok { sst with
        events := (sst.events ++ [Event.step ⟨"tool_call", "set_editor_sql",
            .jobj [("sql", .jstr s)], "Frontend action: set_editor_sql"⟩])
          ++ [Event.action [("type", .jstr "set_editor_sql"), ("sql", .jstr s)]],
        llm_messages := sst.llm_messages ++ [Message.tool cid
          (dumpsV (.jobj [("action", .jstr "set_editor_sql"), ("sql", .jstr s)]))] } := rfl
  rw [hstep, List.append_assoc]
  rfl

/-- C8 counterexample: a tool call whose raw argument text is valid JSON but
not a key→value mapping (e.g. `[1]`) does **not** proceed with an empty
argument mapping — the parsed array flows into dispatch, the `**`-splat
raises TypeError, and the invocation terminates with that exception. -/
theorem claim_C8_counterexample :
    run_agent provC8 envU cfg2 userHi 1 none none none none
      = .error .typeError := rfl

/-- C8 (amended): for every tool call whose raw argument text fails to parse
as JSON at all (raises `json.JSONDecodeError`), the call proceeds with an
empty argument mapping and the round's processing is identical — in both
batch and stream modes — to processing the same call with literally empty
arguments; the parse failure itself is never surfaced as an error.  (Text
parsing to a non-mapping JSON value is instead passed through unchanged.) -/
theorem claim_C8_theorem (env : DbEnv) (did : Int) (sn cat : Option String)
    (msr : Nat) (tc : ToolCall) (st : LoopSt) (sst : StreamSt) (u : Unit)
    (h : tc.arguments = .error u) :
    parsed_args tc = .jobj []
    ∧ process_tool_call env did sn cat msr tc st
      = process_tool_call env did sn cat msr ⟨tc.id, tc.name, .ok (.jobj [])⟩ st
    ∧ process_tool_call_stream env did sn cat msr tc sst
      = process_tool_call_stream env did sn cat msr ⟨tc.id, tc.name, .ok (.jobj [])⟩ sst := by
  obtain ⟨cid, cname, cargs⟩ := tc
  cases h
  exact ⟨rfl, rfl, rfl⟩

/-- C8 witness: the amended claim at a concrete call with undecodable
argument text. -/
theorem claim_C8_witness :
    parsed_args ⟨"x", "list_schemas", .error ()⟩ = .jobj []
    ∧ process_tool_call envU 1 none none 20 ⟨"x", "list_schemas", .error ()⟩
        (initLoopSt [])
      = process_tool_call envU 1 none none 20 ⟨"x", "list_schemas", .ok (.jobj [])⟩
          (initLoopSt [])
    ∧ process_tool_call_stream envU 1 none none 20 ⟨"x", "list_schemas", .error ()⟩
        (initStreamSt [])
      = process_tool_call_stream envU 1 none none 20
          ⟨"x", "list_schemas", .ok (.jobj [])⟩ (initStreamSt []) :=
  claim_C8_theorem envU 1 none none 20 ⟨"x", "list_schemas", .error ()⟩
    (initLoopSt []) (initStreamSt []) () rfl

/-- C9 counterexample: `get_distinct_values` does not truncate to the
loop-supplied sampling cap from the execution context — dispatched with
`max_sample_rows = 1` against a collaborator returning two rows, it returns
2 distinct values, exceeding the cap 1 (its own fixed default of 50 applies
instead; the dispatcher never forwards the context cap). -/
theorem claim_C9_counterexample :
    execute_tool env2 "get_distinct_values"
      (.jobj [("table_name", .jstr "t"), ("schema_name", .jstr "s"),
              ("column_name", .jstr "c")])
      1 none none 1
      = .ok [("table", .jstr "t"), ("column", .jstr "c"), ("distinct_count", .jnum 2),
             ("values", .jarr [.jstr "a", .jstr "b"])]
    ∧ ¬ ((2 : Nat) ≤ 1) := ⟨rfl, by decide⟩

/-- C9 (amended): every row-returning tool truncates to its applicable cap
after retrieval and reports the truncated length — `sample_table_data` to
the dispatcher-forwarded sampling cap, `execute_sql` to its fixed 50-row
cap, and `get_distinct_values` to its own fixed 50-value cap (the
loop-supplied sampling cap from the execution context is **not** forwarded
to it, as the dispatch equations show: `sample_table_data` receives
`max_sample_rows` while `get_distinct_values` and `execute_sql` receive the
constant 50 regardless of it). -/
theorem claim_C9_theorem (env : DbEnv) (did : Int) (tn sn cn : JVal)
    (snO cat : Option String) (mr msr : Nat) (sqlv : JVal) (xs : List JVal) :
    (dlookup (tool_sample_table_data env did tn sn cat mr) "data" = some (.jarr xs) →
      xs.length ≤ mr
      ∧ dlookup (tool_sample_table_data env did tn sn cat mr) "row_count"
          = some (.jnum xs.length))
    ∧ (dlookup (tool_get_distinct_values env did tn sn cn cat 50) "values"
          = some (.jarr xs) →
      xs.length ≤ 50
      ∧ dlookup (tool_get_distinct_values env did tn sn cn cat 50) "distinct_count"
          = some (.jnum xs.length))
    ∧ (dlookup (tool_execute_sql env did sqlv snO cat 50) "data" = some (.jarr xs) →
      xs.length ≤ 50
      ∧ dlookup (tool_execute_sql env did sqlv snO cat 50) "row_count"
          = some (.jnum xs.length))
    ∧ execute_tool env "sample_table_data" (.jobj [("table_name", tn), ("schema_name", sn)])
        did snO cat msr = .ok (tool_sample_table_data env did tn sn cat msr)
    ∧ execute_tool env "get_distinct_values"
        (.jobj [("table_name", tn), ("schema_name", sn), ("column_name", cn)])
        did snO cat msr = .ok (tool_get_distinct_values env did tn sn cn cat 50)
    ∧ execute_tool env "execute_sql" (.jobj [("sql", sqlv)]) did snO cat msr
        = .ok (tool_execute_sql env did sqlv snO cat 50) := by
  refine ⟨?_, ?_, ?_, rfl, rfl, rfl⟩
  · unfold tool_sample_table_data
    split
    · rename_i rows0 cols heq
      intro h
      simp [dlookup] at h
      subst h
      constructor
      · rw [List.length_take, List.length_map]
        exact min_le_left _ _
      · simp [dlookup]
    · rename_i e heq
      intro h
      simp [dlookup] at h
  · unfold tool_get_distinct_values
    split
    · rename_i vals heq
      intro h
      simp [dlookup] at h
      obtain ⟨u, hg, heq2⟩ := except_bind_ok_inv heq
      obtain ⟨⟨rows0, cols⟩, hx, hfv⟩ := except_bind_ok_inv heq2
      have hfv' : firstValues (List.take 50 rows0) = .ok vals := hfv
      have hlen := firstValues_length _ _ hfv'
      constructor
      · rw [← h, List.length_map, hlen, List.length_take]
        exact min_le_left _ _
      · simp [dlookup, ← h]
    · rename_i e heq
      intro h
      simp [dlookup] at h
  · cases sqlv with
    | jstr s =>
      simp only [tool_execute_sql]
      by_cases hg : (!py_startswith (py_upper (py_strip s)) "SELECT"
          && !py_startswith (py_upper (py_strip s)) "WITH") = true
      · rw [if_pos hg]
        intro h
        simp [dlookup] at h
      · rw [if_neg hg]
        unfold execute_sql_query
        split
        · rename_i rows0 cols heq
          intro h
          simp [dlookup] at h
          subst h
          constructor
          · rw [List.length_take, List.length_map]
            exact min_le_left _ _
          · simp [dlookup]
        · rename_i e heq
          intro h
          simp [dlookup] at h
    | jnull => intro h; simp [tool_execute_sql, dlookup] at h
    | jbool b => intro h; simp [tool_execute_sql, dlookup] at h
    | jnum n => intro h; simp [tool_execute_sql, dlookup] at h
    | jarr l => intro h; simp [tool_execute_sql, dlookup] at h
    | jobj l => intro h; simp [tool_execute_sql, dlookup] at h

/-- C9 witness: the amended caps at a collaborator returning two rows —
`sample_table_data` with cap 1 keeps 1 row, `get_distinct_values` and
`execute_sql` keep both under their fixed 50 caps, each reporting the
truncated length. -/
theorem claim_C9_witness :
    ((1 : Nat) ≤ 1
      ∧ dlookup (tool_sample_table_data env2 1 (.jstr "t") (.jstr "s") none 1)
          "row_count" = some (.jnum 1))
    ∧ ((2 : Nat) ≤ 50
      ∧ dlookup (tool_get_distinct_values env2 1 (.jstr "t") (.jstr "s") (.jstr "c")
          none 50) "distinct_count" = some (.jnum 2))
    ∧ ((2 : Nat) ≤ 50
      ∧ dlookup (tool_execute_sql env2 1 (.jstr "SELECT 1") none none 50)
          "row_count" = some (.jnum 2)) :=
  ⟨(claim_C9_theorem env2 1 (.jstr "t") (.jstr "s") (.jstr "c") none none 1 20
      (.jstr "SELECT 1") [.jobj [("c", .jstr "a")]]).1 rfl,
   (claim_C9_theorem env2 1 (.jstr "t") (.jstr "s") (.jstr "c") none none 1 20
      (.jstr "SELECT 1") [.jstr "a", .jstr "b"]).2.1 rfl,
   (claim_C9_theorem env2 1 (.jstr "t") (.jstr "s") (.jstr "c") none none 1 20
      (.jstr "SELECT 1")
      [.jobj [("c", .jstr "a")], .jobj [("c", .jstr "b")]]).2.2.1 rfl⟩

/-- C10: a successful round whose assistant message carries tool calls but
whose finish reason is outside the accepted pair (`tool_calls`/`stop`) is
treated as a final response: no call is dispatched (no Step or Action is
recorded — steps, actions and the dispatch counter are unchanged, for every
database collaborator), and the loop terminates returning/emitting the
assistant's text content with the usage accumulated so far (this round's
usage included). -/
theorem claim_C10_theorem (provider : Provider) (env : DbEnv) (did : Int)
    (sn cat : Option String) (msr fuel : Nat) (st : LoopSt) (sst : StreamSt)
    (c c' : Completion)
    (hb : provider st.llm_messages = .ok c)
    (hbc : truthyCalls c.message.tool_calls = true)
    (hf1 : c.finish_reason ≠ "tool_calls") (hf2 : c.finish_reason ≠ "stop")
    (hs : provider sst.llm_messages = .ok c')
    (hsc : truthyCalls c'.message.tool_calls = true)
    (hg1 : c'.finish_reason ≠ "tool_calls") (hg2 : c'.finish_reason ≠ "stop") :
    agent_loop provider env did sn cat msr (fuel + 1) st
      = .ok ⟨{ response := c.message.content, actions := st.actions, steps := st.steps,
               usage := addUsage st.total_usage c.usage, error := false, warning := none },
             st.usages ++ [c.usage], st.providerCalls + 1, st.callsDispatched⟩
    ∧ agent_stream_loop provider env did sn cat msr (fuel + 1) sst
      = .ok (sst.events ++ [Event.response c'.message.content
          (addUsage sst.total_usage c'.usage) none]) := by
  have e1 : (c.finish_reason == "tool_calls") = false := by simpa using hf1
  have e2 : (c.finish_reason == "stop") = false := by simpa using hf2
  have e3 : (c'.finish_reason == "tool_calls") = false := by simpa using hg1
  have e4 : (c'.finish_reason == "stop") = false := by simpa using hg2
  constructor
  · simp [agent_loop, hb, e1, e2]
  · simp [agent_stream_loop, hs, e3, e4]

/-- C10 witness: the final-response treatment at a concrete provider
returning a tool call together with finish reason `length`. -/
theorem claim_C10_witness :
    agent_loop provLen envU 1 none none 20 1 (initLoopSt [])
      = .ok ⟨{ response := some "cut off", actions := [], steps := [],
               usage := ⟨5, 6, 11⟩, error := false, warning := none },
             [⟨some 5, some 6, some 11⟩], 1, 0⟩
    ∧ agent_stream_loop provLen envU 1 none none 20 1 (initStreamSt [])
      = .ok ([] ++ [Event.response (some "cut off") ⟨5, 6, 11⟩ none]) :=
  claim_C10_theorem provLen envU 1 none none 20 0 (initLoopSt []) (initStreamSt [])
    ⟨⟨some "cut off", some [⟨"id1", "list_schemas", .ok (.jobj [])⟩]⟩, "length",
      ⟨some 5, some 6, some 11⟩⟩
    ⟨⟨some "cut off", some [⟨"id1", "list_schemas", .ok (.jobj [])⟩]⟩, "length",
      ⟨some 5, some 6, some 11⟩⟩
    rfl rfl (by decide) (by decide) rfl rfl (by decide) (by decide)

end Vambery
